import Mathlib

/-!
# Verification of the `budget_manager` database layer

This file is a shallow embedding of `budget_manager/db.py` (a SQLite-backed
personal-finance ledger) together with theorems checking the natural-language
specification against it.

Modelling conventions:

* SQLite `TEXT` values (dates, names) are embedded as `List Nat` of Unicode
  code points; SQLite compares `TEXT` with `memcmp`, embedded here as the
  lexicographic order `lexLt` / `lexLe` on code points.
* SQLite `REAL` amounts are embedded as exact rationals `Rat`.  The spec
  itself declares IEEE-754 rounding an accepted limitation; none of the
  checked claims depend on rounding.
* `AUTOINCREMENT` row ids are carried as explicit counters in the store.
* Python's `datetime.strptime(date, "%Y-%m-%d")` is embedded as `parseDate`
  (exactly four year digits, one or two month and day digits, real calendar
  validity, no surrounding garbage), and `datetime` arithmetic as Rata Die
  day counts in the proleptic Gregorian calendar (`toRD` / `fromRD`,
  day 1 = 0001-01-01, a Monday, matching `datetime.toordinal`).
* Functions that raise `ValueError` are embedded returning `Except`.
-/

namespace BudgetManager

/-- Code points of a string literal, used to write embedded `TEXT` values. -/
def str (s : String) : List Nat := s.data.map (fun c => c.toNat)

/-- Code points of `"income"` (numeral form, so that proofs can evaluate). -/
def incomeTok : List Nat := [105, 110, 99, 111, 109, 101]

/-- Code points of `"expense"`. -/
def expenseTok : List Nat := [101, 120, 112, 101, 110, 115, 101]

/-- Code points of `"daily"`. -/
def dailyTok : List Nat := [100, 97, 105, 108, 121]

/-- Code points of `"weekly"`. -/
def weeklyTok : List Nat := [119, 101, 101, 107, 108, 121]

/-- Code points of `"monthly"`. -/
def monthlyTok : List Nat := [109, 111, 110, 116, 104, 108, 121]

/-- Code points of `"yearly"`. -/
def yearlyTok : List Nat := [121, 101, 97, 114, 108, 121]

/-- Code points of `"Uncategorized"`. -/
def uncategorizedTok : List Nat :=
  [85, 110, 99, 97, 116, 101, 103, 111, 114, 105, 122, 101, 100]

/-- ASCII decimal digit test on a code point. -/
def isDigit (c : Nat) : Bool := 48 ≤ c && c ≤ 57

/-- Numeric value of a digit code point. -/
def digitVal (c : Nat) : Nat := c - 48

/-- Strict lexicographic (memcmp) order on code-point lists, as SQLite
compares `TEXT` values. -/
def lexLt : List Nat → List Nat → Bool
  | _, [] => false
  | [], _ :: _ => true
  | a :: as, b :: bs => decide (a < b) || (a == b && lexLt as bs)

/-- Non-strict lexicographic (memcmp) order on code-point lists. -/
def lexLe : List Nat → List Nat → Bool
  | [], _ => true
  | _ :: _, [] => false
  | a :: as, b :: bs => decide (a < b) || (a == b && lexLe as bs)

/-- SQL predicate `s >= lo AND s < hi` on `TEXT` columns. -/
def dateInRange (s lo hi : List Nat) : Bool := lexLe lo s && lexLt s hi

/-- Python whitespace test (`str.strip` default set, ASCII part). -/
def isSpace (c : Nat) : Bool := c == 32 || (9 ≤ c && c ≤ 13)

/-- `str.strip()`: remove leading and trailing whitespace. -/
def strip (s : List Nat) : List Nat :=
  ((s.dropWhile isSpace).reverse.dropWhile isSpace).reverse

/-! ## Proleptic Gregorian calendar -/

/-- Gregorian leap-year rule, as `calendar.isleap` / `datetime` use. -/
def isLeap (y : Nat) : Bool := (y % 4 == 0 && y % 100 != 0) || y % 400 == 0

/-- Length of month `m` of year `y` (months numbered 1–12). -/
def daysInMonth (y m : Nat) : Nat :=
  if m = 2 then (if isLeap y then 29 else 28)
  else if m = 4 ∨ m = 6 ∨ m = 9 ∨ m = 11 then 30
  else 31

/-- Length of year `y` in days. -/
def daysInYear (y : Nat) : Nat := if isLeap y then 366 else 365

/-- Days in year `y` strictly before month `m` (0 for `m ≤ 1`). -/
def daysBeforeMonth (y : Nat) : Nat → Nat
  | 0 => 0
  | m + 1 => daysBeforeMonth y m + (if 1 ≤ m then daysInMonth y m else 0)

/-- Days strictly before year `y` counting from year 1 (0 for `y ≤ 1`). -/
def daysBeforeYear : Nat → Nat
  | 0 => 0
  | y + 1 => daysBeforeYear y + (if 1 ≤ y then daysInYear y else 0)

/-- A calendar date as `datetime.date` stores it. -/
structure Date where
  year : Nat
  month : Nat
  day : Nat
deriving DecidableEq, Repr

/-- Validity of a `Date` (what `datetime.date` accepts, minus its
9999-year upper bound, which theorems carry as an explicit hypothesis). -/
def Date.validB (d : Date) : Bool :=
  1 ≤ d.year && 1 ≤ d.month && d.month ≤ 12 && 1 ≤ d.day &&
    d.day ≤ daysInMonth d.year d.month

/-- Rata Die day number (`datetime.date.toordinal`): 0001-01-01 ↦ 1. -/
def toRD (d : Date) : Nat :=
  daysBeforeYear d.year + daysBeforeMonth d.year d.month + d.day

/-- `datetime.date.weekday()`: Monday is 0.  Rata Die day 1 is a Monday. -/
def weekdayOf (d : Date) : Nat := (toRD d + 6) % 7

/-- Year scan of the ordinal-to-date conversion, with explicit fuel so it
reduces in the kernel.  Returns the year and the 1-based day of year. -/
def fromRDy : Nat → Nat → Nat → Nat × Nat
  | 0, y, n => (y, n)
  | fuel + 1, y, n =>
      if daysInYear y < n then fromRDy fuel (y + 1) (n - daysInYear y) else (y, n)

/-- Month scan of the ordinal-to-date conversion (fuel driven). -/
def fromRDm (y : Nat) : Nat → Nat → Nat → Nat × Nat
  | 0, m, k => (m, k)
  | fuel + 1, m, k =>
      if daysInMonth y m < k then fromRDm y fuel (m + 1) (k - daysInMonth y m) else (m, k)

/-- Inverse of `toRD` (`datetime.date.fromordinal`) for ordinals ≥ 1. -/
def fromRD (n : Nat) : Date :=
  let yk := fromRDy n 1 n
  let md := fromRDm yk.1 12 1 yk.2
  ⟨yk.1, md.1, md.2⟩

/-! ## Date strings: parsing (`strptime`) and formatting -/

/-- Split a code-point list at its first `'-'` (45); `none` if absent. -/
def splitDash : List Nat → Option (List Nat × List Nat)
  | [] => none
  | c :: rest =>
      if c = 45 then some ([], rest)
      else match splitDash rest with
        | some (l, r) => some (c :: l, r)
        | none => none

/-- All code points are ASCII digits. -/
def allDigits (s : List Nat) : Bool := s.all isDigit

/-- Numeric value of a digit string. -/
def strVal (s : List Nat) : Nat := s.foldl (fun acc c => acc * 10 + digitVal c) 0

/-- `datetime.strptime(s, "%Y-%m-%d")`, embedded: exactly four year digits
(`\d\d\d\d`), a month of one or two digits with value 1–12, a day of one or
two digits valid for the month, nothing else before or after, year ≥ 1
(`datetime` rejects year 0).  Zero padding of month and day is *optional*,
exactly as in CPython's `_strptime` regexes. -/
def parseDate (s : List Nat) : Option Date :=
  match s with
  | y1 :: y2 :: y3 :: y4 :: d1 :: rest =>
      if isDigit y1 && isDigit y2 && isDigit y3 && isDigit y4 && d1 == 45 then
        match splitDash rest with
        | some (ms, ds) =>
            if allDigits ms && allDigits ds &&
                decide (1 ≤ ms.length) && decide (ms.length ≤ 2) &&
                decide (1 ≤ ds.length) && decide (ds.length ≤ 2) then
              let y := strVal [y1, y2, y3, y4]
              let m := strVal ms
              let d := strVal ds
              if 1 ≤ y && 1 ≤ m && m ≤ 12 && 1 ≤ d && d ≤ daysInMonth y m then
                some ⟨y, m, d⟩
              else none
            else none
        | none => none
      else none
  | _ => none

/-- Exactly four digit code points of `n < 10000`. -/
def pad4 (n : Nat) : List Nat :=
  [48 + n / 1000 % 10, 48 + n / 100 % 10, 48 + n / 10 % 10, 48 + n % 10]

/-- Exactly two digit code points of `n < 100`. -/
def pad2 (n : Nat) : List Nat := [48 + n / 10 % 10, 48 + n % 10]

/-- Decimal digits of `n` (no padding), `"0"` for 0. -/
def natDigits (n : Nat) : List Nat := (Nat.toDigits 10 n).map (fun c => c.toNat)

/-- Python `f"{n:04d}"` for a non-negative `n`. -/
def fmt4 (n : Nat) : List Nat := if n < 10000 then pad4 n else natDigits n

/-- Python `f"{n:02d}"` for a non-negative `n`. -/
def fmt2 (n : Nat) : List Nat := if n < 100 then pad2 n else natDigits n

/-- `date.strftime("%Y-%m-%d")` / the `f"{y:04d}-{m:02d}-{d:02d}"` pattern. -/
def fmtDate (d : Date) : List Nat :=
  fmt4 d.year ++ 45 :: fmt2 d.month ++ 45 :: fmt2 d.day

/-- A date string is canonical when it parses and zero-padded reformatting
reproduces it (the `YYYY-MM-DD` form the spec describes). -/
def canonicalDate (s : List Nat) : Bool :=
  match parseDate s with
  | some d => fmtDate d == s
  | none => false

/-! ## The persistent store -/

/-- Transaction type enum (the `CHECK(type IN ('income','expense'))` column). -/
inductive TType where
  | income
  | expense
deriving DecidableEq, Repr

/-- Limit period enum (the `CHECK(period IN (...))` column). -/
inductive Period where
  | daily
  | weekly
  | monthly
  | yearly
deriving DecidableEq, Repr

/-- Row of `categories`. -/
structure Category where
  id : Nat
  name : List Nat
deriving DecidableEq, Repr

/-- Row of `transactions`. -/
structure Txn where
  id : Nat
  date : List Nat
  amount : Rat
  ttype : TType
  categoryId : Option Nat
  descr : Option (List Nat)
deriving DecidableEq, Repr

/-- Row of `category_limits`. -/
structure CatLimit where
  id : Nat
  categoryId : Nat
  limitAmount : Rat
  period : Period
deriving DecidableEq, Repr

/-- Row of `spending_alerts`. -/
structure Alert where
  id : Nat
  categoryId : Nat
  alertDate : List Nat
  spentAmount : Rat
  limitAmount : Rat
  period : Period
  isRead : Bool
deriving DecidableEq, Repr

/-- The SQLite database state: the four tables plus `AUTOINCREMENT`
counters (SQLite row ids start at 1). -/
structure DB where
  categories : List Category
  transactions : List Txn
  catLimits : List CatLimit
  alerts : List Alert
  nextCategoryId : Nat
  nextTxnId : Nat
  nextLimitId : Nat
  nextAlertId : Nat
deriving DecidableEq, Repr

/-- A freshly initialised database (`init_db`). -/
def emptyDB : DB := ⟨[], [], [], [], 1, 1, 1, 1⟩

/-- Validation failures (`ValueError` in the source). -/
inductive Err where
  | badDateFormat
  | badType
  | badPeriod
  | badLimitAmount
deriving DecidableEq, Repr

/-! ## Operations (`db.py`) -/

/-- `add_category`: `INSERT` the stripped name, swallow the uniqueness
failure, then `SELECT` the id by name.  Returns the id and the new state. -/
def add_category (db : DB) (name : List Nat) : Nat × DB :=
  match db.categories.find? (fun c => c.name == strip name) with
  | some c => (c.id, db)
  | none =>
      (db.nextCategoryId,
        { db with
            categories := db.categories ++ [⟨db.nextCategoryId, strip name⟩],
            nextCategoryId := db.nextCategoryId + 1 })

/-- Parse of the `ttype` argument against `("income", "expense")`. -/
def parseTType (s : List Nat) : Option TType :=
  if s = incomeTok then some TType.income
  else if s = expenseTok then some TType.expense
  else none

/-- Parse of the `period` argument against the four period names. -/
def parsePeriod (s : List Nat) : Option Period :=
  if s = dailyTok then some Period.daily
  else if s = weeklyTok then some Period.weekly
  else if s = monthlyTok then some Period.monthly
  else if s = yearlyTok then some Period.yearly
  else none

/-- `SUM(amount)` over a list of transaction rows (`NULL`-as-0 included:
`float(total or 0.0)` yields 0.0 both for no rows and for a zero sum). -/
def sumAmounts (l : List Txn) : Rat := l.foldr (fun t acc => t.amount + acc) 0

/-- The period window `check_and_create_alerts` computes, as the pair
`(start_date, end_date)` of date *strings*.  `td` is the parsed transaction
date, `raw` the original string — the daily branch uses the raw string as
`start_date`, all other bounds are reformatted with zero padding. -/
def codeWindow (p : Period) (td : Date) (raw : List Nat) : List Nat × List Nat :=
  match p with
  | Period.daily => (raw, fmtDate (fromRD (toRD td + 1)))
  | Period.weekly =>
      let mon := fromRD (toRD td - weekdayOf td)
      (fmtDate mon, fmtDate (fromRD (toRD mon + 7)))
  | Period.monthly =>
      (fmt4 td.year ++ 45 :: fmt2 td.month ++ [45, 48, 49],
        if td.month == 12 then fmt4 (td.year + 1) ++ [45, 48, 49, 45, 48, 49]
        else fmt4 td.year ++ 45 :: fmt2 (td.month + 1) ++ [45, 48, 49])
  | Period.yearly =>
      (fmt4 td.year ++ [45, 48, 49, 45, 48, 49],
        fmt4 (td.year + 1) ++ [45, 48, 49, 45, 48, 49])

/-- `check_and_create_alerts(conn, category_id, transaction_date)`.
The `parseDate _ = none` branch is unreachable from `add_transaction`,
which validates the date first (Python would raise there). -/
def check_and_create_alerts (db : DB) (category_id : Nat) (transaction_date : List Nat) : DB :=
  match db.catLimits.find? (fun l => l.categoryId == category_id) with
  | none => db
  | some lim =>
      match parseDate transaction_date with
      | none => db
      | some td =>
          let w := codeWindow lim.period td transaction_date
          let spent := sumAmounts (db.transactions.filter (fun t =>
            t.categoryId == some category_id && t.ttype == TType.expense &&
              dateInRange t.date w.1 w.2))
          if lim.limitAmount < spent then
            match db.alerts.find? (fun a =>
                a.categoryId == category_id && dateInRange a.alertDate w.1 w.2) with
            | some _ => db
            | none =>
                { db with
                    alerts := db.alerts ++
                      [⟨db.nextAlertId, category_id, transaction_date, spent,
                        lim.limitAmount, lim.period, false⟩],
                    nextAlertId := db.nextAlertId + 1 }
          else db

/-- Category resolution inside `add_transaction`: Python's `if category:`
(`None` and `""` are both falsy) followed by `add_category`. -/
def resolveCat (db : DB) (category : Option (List Nat)) : Option Nat × DB :=
  match category with
  | some s => if s = [] then (none, db) else
      let r := add_category db s
      (some r.1, r.2)
  | none => (none, db)

/-- The `INSERT INTO transactions` row write of `add_transaction`. -/
def insertTx (db1 : DB) (date : List Nat) (amount : Rat) (tt : TType)
    (cid : Option Nat) (description : Option (List Nat)) : DB :=
  { db1 with
      transactions := db1.transactions ++
        [⟨db1.nextTxnId, date, amount, tt, cid, description⟩],
      nextTxnId := db1.nextTxnId + 1 }

/-- State after the insert and the conditional alert check of
`add_transaction` (`if ttype == "expense" and category_id:`). -/
def postState (db : DB) (date : List Nat) (amount : Rat) (tt : TType)
    (category : Option (List Nat)) (description : Option (List Nat)) : DB :=
  let r := resolveCat db category
  let db2 := insertTx r.2 date amount tt r.1 description
  if tt = TType.expense then
    match r.1 with
    | some cid => if cid ≠ 0 then check_and_create_alerts db2 cid date else db2
    | none => db2
  else db2

/-- `add_transaction`: validate date then type, resolve the category when
the argument is truthy, insert the row, then run the alert engine for
categorised expenses. -/
def add_transaction (db : DB) (date : List Nat) (amount : Rat) (ttype : List Nat)
    (category : Option (List Nat)) (description : Option (List Nat)) :
    Except Err (Nat × DB) :=
  match parseDate date with
  | none => Except.error Err.badDateFormat
  | some _ =>
      match parseTType ttype with
      | none => Except.error Err.badType
      | some tt =>
          Except.ok ((resolveCat db category).2.nextTxnId,
            postState db date amount tt category description)

/-- Output row of `list_transactions` (transaction joined to its category
name; `category` is `NULL` when there is no category). -/
structure TxnRow where
  id : Nat
  date : List Nat
  amount : Rat
  ttype : TType
  category : Option (List Nat)
  descr : Option (List Nat)
deriving DecidableEq, Repr

/-- The `LEFT JOIN categories` of a transaction row. -/
def toRow (cats : List Category) (t : Txn) : TxnRow :=
  ⟨t.id, t.date, t.amount, t.ttype,
    t.categoryId.bind (fun i => (cats.find? (fun c => c.id == i)).map (fun c => c.name)),
    t.descr⟩

/-- `ORDER BY date DESC, id DESC` as a relation on transaction rows. -/
def txnOrd (a b : Txn) : Prop :=
  lexLt b.date a.date = true ∨ (a.date = b.date ∧ b.id ≤ a.id)

instance : DecidableRel txnOrd := fun a b => by
  unfold txnOrd; infer_instance

/-- `list_transactions(conn, limit)`: full table sorted by
`date DESC, id DESC`, truncated only when `limit` is truthy (`None` and `0`
are falsy) and non-negative (SQLite treats a negative `LIMIT` as none). -/
def list_transactions (db : DB) (limit : Option Int) : List TxnRow :=
  let rows := (db.transactions.insertionSort txnOrd).map (toRow db.categories)
  match limit with
  | some k => if k ≠ 0 then (if 0 ≤ k then rows.take k.toNat else rows) else rows
  | none => rows

/-- `get_balance`: `SUM(CASE WHEN income THEN amount WHEN expense THEN
-amount END)`, with `NULL`/falsy collapsed to 0.0 (same value). -/
def get_balance (db : DB) : Rat :=
  db.transactions.foldr
    (fun t acc => (match t.ttype with
      | TType.income => t.amount
      | TType.expense => -t.amount) + acc) 0

/-- One `by_category` entry of the monthly report. -/
structure CatEntry where
  category : List Nat
  net : Rat
deriving DecidableEq, Repr

/-- `monthly_report` result record. -/
structure Report where
  year : Nat
  month : Nat
  income : Rat
  expense : Rat
  net : Rat
  byCategory : List CatEntry
deriving DecidableEq, Repr

/-- The `GROUP BY c.name` key of a transaction under the `LEFT JOIN`:
the joined category name, `NULL` (`none`) when there is no category. -/
def groupKey (cats : List Category) (t : Txn) : Option (List Nat) :=
  t.categoryId.bind (fun i => (cats.find? (fun c => c.id == i)).map (fun c => c.name))

/-- Python `r["category"] or "Uncategorized"`: `NULL` *and the empty
string* are falsy and print as the sentinel. -/
def categoryLabel (k : Option (List Nat)) : List Nat :=
  match k with
  | none => uncategorizedTok
  | some n => if n = [] then uncategorizedTok else n

/-- Signed sum (`income` positive, `expense` negative) over rows. -/
def netSum (l : List Txn) : Rat :=
  l.foldr
    (fun t acc => (match t.ttype with
      | TType.income => t.amount
      | TType.expense => -t.amount) + acc) 0

/-- `ORDER BY net DESC` as a relation on report entries. -/
def entryOrd (a b : CatEntry) : Prop := b.net ≤ a.net

instance : DecidableRel entryOrd := fun a b => by
  unfold entryOrd; infer_instance

/-- `monthly_report(conn, year, month)`: totals and per-category nets over
the half-open window `[year-month-01, next-month-01)` of date strings. -/
def monthly_report (db : DB) (year month : Nat) : Report :=
  let start := fmt4 year ++ 45 :: fmt2 month ++ [45, 48, 49]
  let stop :=
    if month == 12 then fmt4 (year + 1) ++ [45, 48, 49, 45, 48, 49]
    else fmt4 year ++ 45 :: fmt2 (month + 1) ++ [45, 48, 49]
  let wtxns := db.transactions.filter (fun t => dateInRange t.date start stop)
  let income := sumAmounts (wtxns.filter (fun t => t.ttype == TType.income))
  let expense := sumAmounts (wtxns.filter (fun t => t.ttype == TType.expense))
  let keys := (wtxns.map (groupKey db.categories)).dedup
  let entries := keys.map (fun k =>
    ⟨categoryLabel k,
      netSum (wtxns.filter (fun t => groupKey db.categories t == k))⟩)
  ⟨year, month, income, expense, income - expense, entries.insertionSort entryOrd⟩

/-- `set_category_limit`: validate period then amount, get-or-create the
category, then `INSERT ... ON CONFLICT(category_id) DO UPDATE` the limit. -/
def set_category_limit (db : DB) (category_name : List Nat) (limit_amount : Rat)
    (period : List Nat) : Except Err DB :=
  match parsePeriod period with
  | none => Except.error Err.badPeriod
  | some p =>
      if limit_amount ≤ 0 then Except.error Err.badLimitAmount
      else
        let r := add_category db category_name
        let cid := r.1
        let db1 := r.2
        if db1.catLimits.any (fun l => l.categoryId == cid) then
          Except.ok { db1 with
            catLimits := db1.catLimits.map (fun l =>
              if l.categoryId == cid then
                { l with limitAmount := limit_amount, period := p }
              else l) }
        else
          Except.ok { db1 with
            catLimits := db1.catLimits ++
              [⟨db1.nextLimitId, cid, limit_amount, p⟩],
            nextLimitId := db1.nextLimitId + 1 }

/-- `remove_category_limit`: `DELETE` by the scalar subquery
`(SELECT id FROM categories WHERE name = ?)` (no stripping here), and
report `rowcount > 0`. -/
def remove_category_limit (db : DB) (category_name : List Nat) : Bool × DB :=
  match db.categories.find? (fun c => c.name == category_name) with
  | none => (false, db)
  | some c =>
      let remaining := db.catLimits.filter (fun l => !(l.categoryId == c.id))
      (decide (remaining.length < db.catLimits.length),
        { db with catLimits := remaining })

/-! ## Spec-side windows, invariants and run harnesses -/

/-- Start date of the period window containing the valid date `d`
(spec §4.3: daily `[d, d+1)`, weekly from the Monday of `d`'s week,
monthly from the first of the month, yearly from January 1). -/
def wStartD (p : Period) (d : Date) : Date :=
  match p with
  | Period.daily => d
  | Period.weekly => fromRD (toRD d - weekdayOf d)
  | Period.monthly => ⟨d.year, d.month, 1⟩
  | Period.yearly => ⟨d.year, 1, 1⟩

/-- Exclusive end date of the period window containing `d`. -/
def wEndD (p : Period) (d : Date) : Date :=
  match p with
  | Period.daily => fromRD (toRD d + 1)
  | Period.weekly => fromRD (toRD d - weekdayOf d + 7)
  | Period.monthly =>
      if d.month = 12 then ⟨d.year + 1, 1, 1⟩ else ⟨d.year, d.month + 1, 1⟩
  | Period.yearly => ⟨d.year + 1, 1, 1⟩

/-- Amounts of the rows stored by a successful call. -/
def storedAmounts : Except Err (Nat × DB) → List Rat
  | Except.ok (_, db2) => db2.transactions.map (fun t => t.amount)
  | Except.error _ => []

/-- `ORDER BY date DESC, id DESC` on output rows. -/
def rowOrd (a b : TxnRow) : Prop :=
  lexLt b.date a.date = true ∨ (a.date = b.date ∧ b.id ≤ a.id)

/-- Alerts of one category. -/
def alertsFor (db : DB) (cid : Nat) : List Alert :=
  db.alerts.filter (fun a => a.categoryId == cid)

/-- No `category_limits` row exists for this category id. -/
def noLimitFor (db : DB) (cid : Nat) : Prop :=
  db.catLimits.find? (fun l => l.categoryId == cid) = none

/-- Arguments of one `add_transaction` call. -/
structure TxCall where
  date : List Nat
  amount : Rat
  ttype : List Nat
  category : Option (List Nat)
  descr : Option (List Nat)

/-- Run a sequence of `add_transaction` calls, ignoring validation
failures (a failed call leaves the store untouched). -/
def runCalls (db : DB) : List TxCall → DB
  | [] => db
  | c :: rest =>
      match add_transaction db c.date c.amount c.ttype c.category c.descr with
      | Except.ok r => runCalls r.2 rest
      | Except.error _ => runCalls db rest

/-- Spec-side month membership: the stored date string parses to a date
in the given calendar month (the half-open window
`[year-month-01, next-month-01)` contains exactly those dates). -/
def specInMonth (year month : Nat) (t : Txn) : Bool :=
  match parseDate t.date with
  | some e => e.year == year && e.month == month
  | none => false

/-- The calendar-month transactions of the store. -/
def specMonthTxns (db : DB) (year month : Nat) : List Txn :=
  db.transactions.filter (specInMonth year month)

/-- The dedup invariant: for every configured limit and every period
window (named by a valid generator date in the formattable range), at
most one alert of that limit's category has its `alert_date` inside the
window's date-string range. -/
def AlertDedup (db : DB) : Prop :=
  ∀ l ∈ db.catLimits, ∀ g : Date, g.validB = true → g.year ≤ 9998 →
    (db.alerts.filter (fun a => a.categoryId == l.categoryId &&
      dateInRange a.alertDate (fmtDate (wStartD l.period g))
        (fmtDate (wEndD l.period g)))).length ≤ 1

/-- Unwrap an `Except`-returning store operation, keeping the fallback
state on a validation error. -/
def okOr (fb : DB) (r : Except Err DB) : DB :=
  match r with
  | Except.ok d => d
  | Except.error _ => fb

/-- Category name `Food` of the dedup counterexample. -/
def cxF : List Nat := [70, 111, 111, 100]

/-- Date string `0005-01-10`. -/
def cxD1 : List Nat := [48, 48, 48, 53, 45, 48, 49, 45, 49, 48]

/-- Date string `0005-1-5`: a valid `strptime` date that is not
zero-padded, so it falls outside every zero-padded window string range. -/
def cxD2 : List Nat := [48, 48, 48, 53, 45, 49, 45, 53]

/-- Date string `0005-01-20`. -/
def cxD3 : List Nat := [48, 48, 48, 53, 45, 48, 49, 45, 50, 48]

/-- Stored rows and intermediate states of the dedup counterexample. -/
def cxT1 : Txn := ⟨1, cxD1, 60, TType.expense, some 1, none⟩

def cxT2 : Txn := ⟨2, cxD2, 7, TType.expense, some 1, none⟩

def cxT3 : Txn := ⟨3, cxD3, 8, TType.expense, some 1, none⟩

def cxL : CatLimit := ⟨1, 1, 50, Period.monthly⟩

def cxA1 : Alert := ⟨1, 1, cxD2, 60, 50, Period.monthly, false⟩

def cxA2 : Alert := ⟨2, 1, cxD3, 68, 50, Period.monthly, false⟩

def cxDb1 : DB := ⟨[⟨1, cxF⟩], [cxT1], [], [], 2, 2, 1, 1⟩

def cxDb2 : DB := ⟨[⟨1, cxF⟩], [cxT1], [cxL], [], 2, 2, 2, 1⟩

def cxDb3b : DB := ⟨[⟨1, cxF⟩], [cxT1, cxT2], [cxL], [], 2, 3, 2, 1⟩

def cxDb3 : DB := ⟨[⟨1, cxF⟩], [cxT1, cxT2], [cxL], [cxA1], 2, 3, 2, 2⟩

def cxDb4b : DB := ⟨[⟨1, cxF⟩], [cxT1, cxT2, cxT3], [cxL], [cxA1], 2, 4, 2, 2⟩

def cxDb4 : DB := ⟨[⟨1, cxF⟩], [cxT1, cxT2, cxT3], [cxL], [cxA1, cxA2], 2, 4, 2, 3⟩

/-! ## Token spellings -/

theorem incomeTok_eq : incomeTok = str ("income") := rfl

theorem expenseTok_eq : expenseTok = str ("expense") := rfl

theorem dailyTok_eq : dailyTok = str ("daily") := rfl

theorem weeklyTok_eq : weeklyTok = str ("weekly") := rfl

theorem monthlyTok_eq : monthlyTok = str ("monthly") := rfl

theorem yearlyTok_eq : yearlyTok = str ("yearly") := rfl

theorem uncategorizedTok_eq : uncategorizedTok = str ("Uncategorized") := rfl

/-! ## Lemmas about the lexicographic order -/

theorem lexLe_eq_not_lexLt (a b : List Nat) : lexLe a b = !lexLt b a := by
  induction a generalizing b with
  | nil => cases b <;> simp [lexLe, lexLt]
  | cons x xs ih =>
      cases b with
      | nil => simp [lexLe, lexLt]
      | cons y ys =>
          simp only [lexLe, lexLt, ih]
          rcases h' : lexLt ys xs <;>
            · rw [Bool.eq_iff_iff]
              simp only [h', Bool.or_eq_true, Bool.and_eq_true, decide_eq_true_eq,
                beq_iff_eq, Bool.not_true, Bool.not_false, Bool.and_true,
                Bool.and_false, Bool.or_false, Bool.not_eq_true',
                Bool.or_eq_false_iff, Bool.and_eq_false_iff,
                decide_eq_false_iff_not, beq_eq_false_iff_ne, ne_eq,
                Bool.false_eq_true, Bool.true_eq_false]
              omega

theorem lexLt_irrefl (a : List Nat) : lexLt a a = false := by
  induction a with
  | nil => simp [lexLt]
  | cons x xs ih => simp [lexLt, ih]

theorem lexLt_trans {a b c : List Nat} (h1 : lexLt a b = true)
    (h2 : lexLt b c = true) : lexLt a c = true := by
  induction a generalizing b c with
  | nil =>
      cases c with
      | nil => cases b <;> simp [lexLt] at h1 h2
      | cons z zs => simp [lexLt]
  | cons x xs ih =>
      cases b with
      | nil => simp [lexLt] at h1
      | cons y ys =>
          cases c with
          | nil => simp [lexLt] at h2
          | cons z zs =>
              simp only [lexLt, Bool.or_eq_true, Bool.and_eq_true, decide_eq_true_eq,
                beq_iff_eq] at h1 h2 ⊢
              rcases h1 with h1 | ⟨rfl, h1⟩
              · rcases h2 with h2 | ⟨rfl, h2⟩
                · exact Or.inl (Nat.lt_trans h1 h2)
                · exact Or.inl h1
              · rcases h2 with h2 | ⟨rfl, h2⟩
                · exact Or.inl h2
                · exact Or.inr ⟨rfl, ih h1 h2⟩

theorem lexLt_antisymm {a b : List Nat} (h1 : lexLt a b = false)
    (h2 : lexLt b a = false) : a = b := by
  induction a generalizing b with
  | nil => cases b <;> simp [lexLt] at h1 h2 ⊢
  | cons x xs ih =>
      cases b with
      | nil => simp [lexLt] at h2
      | cons y ys =>
          simp only [lexLt, Bool.or_eq_false_iff, Bool.and_eq_false_iff,
            decide_eq_false_iff_not, beq_eq_false_iff_ne, ne_eq] at h1 h2
          have hxy : x = y := by omega
          subst hxy
          rcases h1.2 with h | h
          · exact absurd rfl h
          · rcases h2.2 with h' | h'
            · exact absurd rfl h'
            · rw [ih h h']

theorem lexLe_refl (a : List Nat) : lexLe a a = true := by
  rw [lexLe_eq_not_lexLt, lexLt_irrefl]; rfl

/-- `lexLt` through a common prefix. -/
theorem lexLt_append_left (p : List Nat) (r1 r2 : List Nat) :
    lexLt (p ++ r1) (p ++ r2) = lexLt r1 r2 := by
  induction p with
  | nil => rfl
  | cons x xs ih => simp [lexLt, ih]

/-- Comparing two-digit zero-padded numbers under `lexLt`, with arbitrary
continuations. -/
theorem lexLt_pad2 {a b : Nat} (ha : a < 100) (hb : b < 100) (r1 r2 : List Nat) :
    lexLt (pad2 a ++ r1) (pad2 b ++ r2) =
      (decide (a < b) || (a == b && lexLt r1 r2)) := by
  have e1 : a / 10 % 10 = a / 10 := Nat.mod_eq_of_lt (by omega)
  have e2 : b / 10 % 10 = b / 10 := Nat.mod_eq_of_lt (by omega)
  simp only [pad2, List.cons_append, List.nil_append, List.append_eq, lexLt, e1, e2]
  rcases h : lexLt r1 r2 <;>
    · rw [Bool.eq_iff_iff]
      simp only [h, Bool.or_eq_true, Bool.and_eq_true, decide_eq_true_eq,
        beq_iff_eq, Bool.and_true, Bool.and_false, Bool.or_false,
        Bool.false_eq_true, Bool.true_eq_false, and_false, or_false, and_true,
        false_and, false_or, true_and]
      omega

/-- Comparing four-digit zero-padded numbers under `lexLt`, with arbitrary
continuations. -/
theorem lexLt_pad4 {a b : Nat} (ha : a < 10000) (hb : b < 10000) (r1 r2 : List Nat) :
    lexLt (pad4 a ++ r1) (pad4 b ++ r2) =
      (decide (a < b) || (a == b && lexLt r1 r2)) := by
  have e1 : a / 1000 % 10 = a / 1000 := Nat.mod_eq_of_lt (by omega)
  have e2 : b / 1000 % 10 = b / 1000 := Nat.mod_eq_of_lt (by omega)
  have h3 : a / 100 / 10 = a / 1000 := by rw [Nat.div_div_eq_div_mul]
  have h4 : b / 100 / 10 = b / 1000 := by rw [Nat.div_div_eq_div_mul]
  have h5 : a / 10 / 10 = a / 100 := by rw [Nat.div_div_eq_div_mul]
  have h6 : b / 10 / 10 = b / 100 := by rw [Nat.div_div_eq_div_mul]
  simp only [pad4, List.cons_append, List.nil_append, List.append_eq, lexLt, e1, e2]
  rcases h : lexLt r1 r2 <;>
    · rw [Bool.eq_iff_iff]
      simp only [h, Bool.or_eq_true, Bool.and_eq_true, decide_eq_true_eq,
        beq_iff_eq, Bool.and_true, Bool.and_false, Bool.or_false,
        Bool.false_eq_true, Bool.true_eq_false, and_false, or_false, and_true,
        false_and, false_or, true_and]
      omega

/-! ## Calendar lemmas -/

theorem daysInMonth_bounds (y m : Nat) : 28 ≤ daysInMonth y m ∧ daysInMonth y m ≤ 31 := by
  unfold daysInMonth
  split_ifs <;> omega

theorem daysInYear_bounds (y : Nat) : 365 ≤ daysInYear y ∧ daysInYear y ≤ 366 := by
  unfold daysInYear
  split_ifs <;> omega

theorem daysBeforeMonth_succ (y m : Nat) :
    daysBeforeMonth y (m + 1) = daysBeforeMonth y m + (if 1 ≤ m then daysInMonth y m else 0) :=
  rfl

theorem daysBeforeYear_succ (y : Nat) :
    daysBeforeYear (y + 1) = daysBeforeYear y + (if 1 ≤ y then daysInYear y else 0) :=
  rfl

theorem daysBeforeMonth_13 (y : Nat) : daysBeforeMonth y 13 = daysInYear y := by
  rcases hL : isLeap y <;>
    simp [daysBeforeMonth, daysInMonth, daysInYear, hL,
      show (13 : Nat) = 12 + 1 from rfl, show (12 : Nat) = 11 + 1 from rfl,
      show (11 : Nat) = 10 + 1 from rfl, show (10 : Nat) = 9 + 1 from rfl,
      show (9 : Nat) = 8 + 1 from rfl, show (8 : Nat) = 7 + 1 from rfl,
      show (7 : Nat) = 6 + 1 from rfl, show (6 : Nat) = 5 + 1 from rfl,
      show (5 : Nat) = 4 + 1 from rfl, show (4 : Nat) = 3 + 1 from rfl,
      show (3 : Nat) = 2 + 1 from rfl, show (2 : Nat) = 1 + 1 from rfl]

theorem daysBeforeMonth_mono (y : Nat) {m1 m2 : Nat} (h : m1 ≤ m2) :
    daysBeforeMonth y m1 ≤ daysBeforeMonth y m2 := by
  induction m2 with
  | zero => simp_all
  | succ m ih =>
      rcases Nat.lt_or_ge m1 (m + 1) with h' | h'
      · calc daysBeforeMonth y m1 ≤ daysBeforeMonth y m := ih (by omega)
          _ ≤ _ := by rw [daysBeforeMonth_succ]; omega
      · have h2 : m1 = m + 1 := by omega
        rw [h2]

theorem daysBeforeYear_mono {y1 y2 : Nat} (h : y1 ≤ y2) :
    daysBeforeYear y1 ≤ daysBeforeYear y2 := by
  induction y2 with
  | zero => simp_all
  | succ y ih =>
      rcases Nat.lt_or_ge y1 (y + 1) with h' | h'
      · calc daysBeforeYear y1 ≤ daysBeforeYear y := ih (by omega)
          _ ≤ _ := by rw [daysBeforeYear_succ]; omega
      · have h2 : y1 = y + 1 := by omega
        rw [h2]

/-- Unpacked validity. -/
theorem validB_iff (d : Date) :
    d.validB = true ↔
      1 ≤ d.year ∧ 1 ≤ d.month ∧ d.month ≤ 12 ∧ 1 ≤ d.day ∧
        d.day ≤ daysInMonth d.year d.month := by
  simp [Date.validB, Bool.and_eq_true, decide_eq_true_eq, and_assoc]

/-- In-year offset of a valid date is within the year. -/
theorem dbm_day_le (y m dd : Nat) (hm1 : 1 ≤ m) (hm2 : m ≤ 12)
    (hd : dd ≤ daysInMonth y m) :
    daysBeforeMonth y m + dd ≤ daysInYear y := by
  have h1 : daysBeforeMonth y (m + 1) = daysBeforeMonth y m + daysInMonth y m := by
    rw [daysBeforeMonth_succ, if_pos hm1]
  have h2 : daysBeforeMonth y (m + 1) ≤ daysBeforeMonth y 13 :=
    daysBeforeMonth_mono y (by omega)
  have h3 := daysBeforeMonth_13 y
  omega

/-- Ordinal bounds of a valid date inside its year. -/
theorem toRD_bounds (d : Date) (h : d.validB = true) :
    daysBeforeYear d.year + 1 ≤ toRD d ∧ toRD d ≤ daysBeforeYear (d.year + 1) := by
  rw [validB_iff] at h
  obtain ⟨hy, hm1, hm2, hd1, hd2⟩ := h
  have h1 := dbm_day_le d.year d.month d.day hm1 hm2 hd2
  have h2 : daysBeforeYear (d.year + 1) = daysBeforeYear d.year + daysInYear d.year := by
    rw [daysBeforeYear_succ, if_pos hy]
  unfold toRD
  omega

theorem prodFst {A B : Type} (a : A) (b : B) : (a, b).1 = a := rfl

theorem prodSnd {A B : Type} (a : A) (b : B) : (a, b).2 = b := rfl

/-- Year scan invariant of `fromRDy`. -/
theorem fromRDy_spec : ∀ fuel y n, 1 ≤ y → 1 ≤ n → n ≤ fuel + daysInYear y →
    daysBeforeYear (fromRDy fuel y n).1 + (fromRDy fuel y n).2 = daysBeforeYear y + n ∧
      1 ≤ (fromRDy fuel y n).2 ∧
      (fromRDy fuel y n).2 ≤ daysInYear (fromRDy fuel y n).1 ∧
      y ≤ (fromRDy fuel y n).1 := by
  intro fuel
  induction fuel with
  | zero =>
      intro y n hy hn hle
      simp only [fromRDy, prodFst, prodSnd, true_and, and_true]
      omega
  | succ fuel ih =>
      intro y n hy hn hle
      simp only [fromRDy]
      by_cases h : daysInYear y < n
      · rw [if_pos h]
        have hy1 := daysInYear_bounds (y + 1)
        have step : daysBeforeYear (y + 1) = daysBeforeYear y + daysInYear y := by
          rw [daysBeforeYear_succ, if_pos hy]
        have := ih (y + 1) (n - daysInYear y) (by omega) (by omega) (by omega)
        obtain ⟨e1, e2, e3, e4⟩ := this
        refine ⟨by omega, e2, e3, by omega⟩
      · rw [if_neg h]
        simp only [prodFst, prodSnd, true_and, and_true]
        omega

/-- Month scan invariant of `fromRDm`. -/
theorem fromRDm_spec (y : Nat) : ∀ fuel m k, 1 ≤ m → m ≤ 12 → 1 ≤ k →
    daysBeforeMonth y m + k ≤ daysInYear y → 12 ≤ m + fuel →
    daysBeforeMonth y (fromRDm y fuel m k).1 + (fromRDm y fuel m k).2 =
        daysBeforeMonth y m + k ∧
      1 ≤ (fromRDm y fuel m k).2 ∧
      (fromRDm y fuel m k).2 ≤ daysInMonth y (fromRDm y fuel m k).1 ∧
      1 ≤ (fromRDm y fuel m k).1 ∧ (fromRDm y fuel m k).1 ≤ 12 := by
  intro fuel
  induction fuel with
  | zero =>
      intro m k hm1 hm2 hk hin hfuel
      have hm12 : m = 12 := by omega
      subst hm12
      have h1 : daysBeforeMonth y 13 = daysBeforeMonth y 12 + daysInMonth y 12 := by
        rw [daysBeforeMonth_succ]; simp
      have h2 := daysBeforeMonth_13 y
      simp only [fromRDm, prodFst, prodSnd, true_and, and_true]
      omega
  | succ fuel ih =>
      intro m k hm1 hm2 hk hin hfuel
      simp only [fromRDm]
      by_cases h : daysInMonth y m < k
      · rw [if_pos h]
        have hmlt : m < 12 := by
          by_contra hc
          have hm12 : m = 12 := by omega
          subst hm12
          have h1 : daysBeforeMonth y 13 = daysBeforeMonth y 12 + daysInMonth y 12 := by
            rw [daysBeforeMonth_succ]; simp
          have h2 := daysBeforeMonth_13 y
          omega
        have step : daysBeforeMonth y (m + 1) = daysBeforeMonth y m + daysInMonth y m := by
          rw [daysBeforeMonth_succ, if_pos hm1]
        have := ih (m + 1) (k - daysInMonth y m) (by omega) (by omega) (by omega)
          (by omega) (by omega)
        obtain ⟨e1, e2, e3, e4, e5⟩ := this
        refine ⟨by omega, e2, e3, e4, e5⟩
      · rw [if_neg h]
        simp only [prodFst, prodSnd, true_and, and_true]
        omega

/-- `fromRD` inverts `toRD` on ordinals ≥ 1, producing a valid date. -/
theorem toRD_fromRD (n : Nat) (hn : 1 ≤ n) :
    (fromRD n).validB = true ∧ toRD (fromRD n) = n := by
  obtain ⟨e1, e2, e3, e4⟩ := fromRDy_spec n 1 n (le_refl 1) hn (by omega)
  have hdbm1 : daysBeforeMonth (fromRDy n 1 n).1 1 = 0 := rfl
  obtain ⟨f1, f2, f3, f4, f5⟩ := fromRDm_spec (fromRDy n 1 n).1 12 1 (fromRDy n 1 n).2
    (le_refl 1) (by omega) e2 (by omega) (by omega)
  have hz1 : daysBeforeYear 1 = 0 := rfl
  have hfd : fromRD n = ⟨(fromRDy n 1 n).1,
      (fromRDm (fromRDy n 1 n).1 12 1 (fromRDy n 1 n).2).1,
      (fromRDm (fromRDy n 1 n).1 12 1 (fromRDy n 1 n).2).2⟩ := rfl
  rw [hfd]
  constructor
  · rw [validB_iff]
    dsimp only
    omega
  · unfold toRD
    dsimp only
    omega

/-- `toRD` orders valid dates exactly as the (year, month, day) triple. -/
theorem toRD_lt_iff (a b : Date) (ha : a.validB = true) (hb : b.validB = true) :
    toRD a < toRD b ↔
      (a.year < b.year ∨ (a.year = b.year ∧ (a.month < b.month ∨
        (a.month = b.month ∧ a.day < b.day)))) := by
  rw [validB_iff] at ha hb
  obtain ⟨hay, ham1, ham2, had1, had2⟩ := ha
  obtain ⟨hby, hbm1, hbm2, hbd1, hbd2⟩ := hb
  have key : ∀ c d : Date, 1 ≤ c.year → 1 ≤ c.month → c.month ≤ 12 → 1 ≤ c.day →
      c.day ≤ daysInMonth c.year c.month → 1 ≤ d.year → 1 ≤ d.month → d.month ≤ 12 →
      1 ≤ d.day → d.day ≤ daysInMonth d.year d.month →
      (c.year < d.year ∨ (c.year = d.year ∧ (c.month < d.month ∨
        (c.month = d.month ∧ c.day < d.day)))) → toRD c < toRD d := by
    intro c d hcy hcm1 hcm2 hcd1 hcd2 hdy hdm1 hdm2 hdd1 hdd2 hlex
    unfold toRD
    rcases hlex with h | ⟨hy, h⟩
    · have b1 := dbm_day_le c.year c.month c.day hcm1 hcm2 hcd2
      have b2 : daysBeforeYear (c.year + 1) = daysBeforeYear c.year + daysInYear c.year := by
        rw [daysBeforeYear_succ, if_pos hcy]
      have b3 : daysBeforeYear (c.year + 1) ≤ daysBeforeYear d.year :=
        daysBeforeYear_mono (by omega)
      have b4 : 0 ≤ daysBeforeMonth d.year d.month := Nat.zero_le _
      omega
    · rw [hy]
      rcases h with h | ⟨hm, h⟩
      · have b1 : daysBeforeMonth d.year (c.month + 1) =
            daysBeforeMonth d.year c.month + daysInMonth d.year c.month := by
          rw [daysBeforeMonth_succ, if_pos hcm1]
        have b2 : daysBeforeMonth d.year (c.month + 1) ≤ daysBeforeMonth d.year d.month :=
          daysBeforeMonth_mono d.year (by omega)
        rw [hy] at hcd2
        omega
      · rw [hm]
        omega
  constructor
  · intro h
    have tri : (a.year < b.year ∨ (a.year = b.year ∧ (a.month < b.month ∨
        (a.month = b.month ∧ a.day < b.day)))) ∨
        (a.year = b.year ∧ a.month = b.month ∧ a.day = b.day) ∨
        (b.year < a.year ∨ (b.year = a.year ∧ (b.month < a.month ∨
          (b.month = a.month ∧ b.day < a.day)))) := by omega
    rcases tri with h1 | h1 | h1
    · exact h1
    · exfalso
      have : toRD a = toRD b := by
        unfold toRD; rw [h1.1, h1.2.1, h1.2.2]
      omega
    · exfalso
      have := key b a hby hbm1 hbm2 hbd1 hbd2 hay ham1 ham2 had1 had2 h1
      omega
  · exact key a b hay ham1 ham2 had1 had2 hby hbm1 hbm2 hbd1 hbd2

/-- `toRD` is injective on valid dates. -/
theorem toRD_inj {a b : Date} (ha : a.validB = true) (hb : b.validB = true)
    (h : toRD a = toRD b) : a = b := by
  have h1 := toRD_lt_iff a b ha hb
  have h2 := toRD_lt_iff b a hb ha
  have e1 : a.year = b.year := by omega
  have e2 : a.month = b.month := by omega
  have e3 : a.day = b.day := by omega
  cases a; cases b
  simp_all

/-- `fromRD` inverts `toRD` also in the other direction, on valid dates. -/
theorem fromRD_toRD (d : Date) (h : d.validB = true) : fromRD (toRD d) = d := by
  have h1 : 1 ≤ toRD d := by
    have := toRD_bounds d h
    omega
  have h2 := toRD_fromRD (toRD d) h1
  exact toRD_inj h2.1 h h2.2

/-! ## Formatting and parsing lemmas -/

theorem isDigit_48 (k : Nat) : isDigit (48 + k % 10) = true := by
  have h : k % 10 < 10 := Nat.mod_lt _ (by omega)
  simp only [isDigit, Bool.and_eq_true, decide_eq_true_eq]
  omega

theorem pad_digit_ne_45 (k : Nat) : ¬(48 + k % 10 = 45) := by omega

theorem splitDash_two (a b : Nat) (r : List Nat) (ha : ¬(a = 45)) (hb : ¬(b = 45)) :
    splitDash (a :: b :: 45 :: r) = some ([a, b], r) := by
  simp [splitDash, ha, hb]

theorem strVal_pad4 (n : Nat) (h : n < 10000) :
    strVal [48 + n / 1000 % 10, 48 + n / 100 % 10, 48 + n / 10 % 10, 48 + n % 10] = n := by
  have h3 : n / 100 / 10 = n / 1000 := by rw [Nat.div_div_eq_div_mul]
  have h5 : n / 10 / 10 = n / 100 := by rw [Nat.div_div_eq_div_mul]
  have e1 : n / 1000 % 10 = n / 1000 := Nat.mod_eq_of_lt (by omega)
  simp only [strVal, digitVal, List.foldl, e1]
  omega

theorem strVal_pad2 (n : Nat) (h : n < 100) :
    strVal [48 + n / 10 % 10, 48 + n % 10] = n := by
  have e1 : n / 10 % 10 = n / 10 := Nat.mod_eq_of_lt (by omega)
  simp only [strVal, digitVal, List.foldl, e1]
  omega

/-- Formatting a valid date in the supported year range parses back to the
same date: `fmtDate` output is canonical. -/
theorem parseDate_fmtDate (d : Date) (hv : d.validB = true) (hy : d.year ≤ 9999) :
    parseDate (fmtDate d) = some d := by
  rw [validB_iff] at hv
  obtain ⟨h1, h2, h3, h4, h5⟩ := hv
  have hy4 : d.year < 10000 := by omega
  have hm100 : d.month < 100 := by omega
  have hd100 : d.day < 100 := by
    have := daysInMonth_bounds d.year d.month
    omega
  have hsd := splitDash_two (48 + d.month / 10 % 10) (48 + d.month % 10)
    [48 + d.day / 10 % 10, 48 + d.day % 10] (pad_digit_ne_45 _) (pad_digit_ne_45 _)
  have hsv4 := strVal_pad4 d.year hy4
  have hsv2m := strVal_pad2 d.month hm100
  have hsv2d := strVal_pad2 d.day hd100
  simp only [fmtDate, fmt4, fmt2, if_pos hy4, if_pos hm100, if_pos hd100, pad4, pad2,
    List.cons_append, List.nil_append, List.append_assoc, parseDate, isDigit_48,
    beq_self_eq_true, Bool.and_self, Bool.and_true, Bool.true_and, if_true, hsd,
    allDigits, List.all_cons, List.all_nil, List.length_cons, List.length_nil,
    hsv4, hsv2m, hsv2d]
  simp [isDigit_48, h1, h2, h3, h4, h5]

/-- Any successfully parsed date is a valid calendar date with a
four-digit year. -/
theorem parseDate_some {s : List Nat} {d : Date} (h : parseDate s = some d) :
    d.validB = true ∧ d.year ≤ 9999 := by
  unfold parseDate at h
  split at h
  case h_2 => exact absurd h (by simp)
  case h_1 y1 y2 y3 y4 c rest =>
    split at h
    case isFalse => exact absurd h (by simp)
    case isTrue hdig =>
      split at h
      case h_2 => exact absurd h (by simp)
      case h_1 ms ds hsplit =>
        split at h
        case isFalse => exact absurd h (by simp)
        case isTrue hlen =>
          dsimp only at h
          split at h
          case isFalse => exact absurd h (by simp)
          case isTrue hval =>
            simp only [Option.some_inj] at h
            subst h
            simp only [Bool.and_eq_true, decide_eq_true_eq] at hdig hval
            obtain ⟨⟨⟨⟨v1, v2⟩, v3⟩, v4⟩, v5⟩ := hval
            constructor
            · rw [validB_iff]
              exact ⟨v1, v2, v3, v4, v5⟩
            · obtain ⟨⟨⟨⟨hd1, hd2⟩, hd3⟩, hd4⟩, _⟩ := hdig
              simp only [isDigit, Bool.and_eq_true, decide_eq_true_eq] at hd1 hd2 hd3 hd4
              simp only [strVal, digitVal, List.foldl]
              omega

/-- Characterisation of canonical date strings. -/
theorem canonicalDate_iff (s : List Nat) :
    canonicalDate s = true ↔
      ∃ d : Date, d.validB = true ∧ d.year ≤ 9999 ∧ parseDate s = some d ∧
        fmtDate d = s := by
  constructor
  · intro h
    unfold canonicalDate at h
    split at h
    case h_2 => exact absurd h (by simp)
    case h_1 d hparse =>
      have hv := parseDate_some hparse
      exact ⟨d, hv.1, hv.2, hparse, by simpa using h⟩
  · rintro ⟨d, hv, hy, hparse, hfmt⟩
    unfold canonicalDate
    rw [hparse]
    simp [hfmt]

/-- `lexLt` on formatted dates is the Rata Die (calendar) order. -/
theorem lexLt_fmtDate {a b : Date} (ha : a.validB = true) (hb : b.validB = true)
    (hya : a.year ≤ 9999) (hyb : b.year ≤ 9999) :
    lexLt (fmtDate a) (fmtDate b) = true ↔ toRD a < toRD b := by
  have hva := (validB_iff a).mp ha
  have hvb := (validB_iff b).mp hb
  have hya4 : a.year < 10000 := by omega
  have hyb4 : b.year < 10000 := by omega
  have ham : a.month < 100 := by omega
  have hbm : b.month < 100 := by omega
  have had : a.day < 100 := by have := daysInMonth_bounds a.year a.month; omega
  have hbd : b.day < 100 := by have := daysInMonth_bounds b.year b.month; omega
  rw [toRD_lt_iff a b ha hb]
  simp only [fmtDate, fmt4, fmt2, if_pos hya4, if_pos hyb4, if_pos ham, if_pos hbm,
    if_pos had, if_pos hbd]
  rw [List.append_assoc, List.append_assoc, List.cons_append, List.cons_append]
  rw [lexLt_pad4 hya4 hyb4]
  have cons_same : ∀ c : Nat, ∀ x y : List Nat, lexLt (c :: x) (c :: y) = lexLt x y := by
    intro c x y
    simp [lexLt]
  rw [cons_same]
  rw [lexLt_pad2 ham hbm]
  rw [cons_same]
  have hday := lexLt_pad2 had hbd ([] : List Nat) ([] : List Nat)
  rw [List.append_nil, List.append_nil] at hday
  rw [hday]
  simp only [lexLt, Bool.and_false, Bool.or_false, Bool.or_eq_true, Bool.and_eq_true,
    decide_eq_true_eq, beq_iff_eq]

/-- `lexLe` on formatted dates is the Rata Die (calendar) order. -/
theorem lexLe_fmtDate {a b : Date} (ha : a.validB = true) (hb : b.validB = true)
    (hya : a.year ≤ 9999) (hyb : b.year ≤ 9999) :
    lexLe (fmtDate a) (fmtDate b) = true ↔ toRD a ≤ toRD b := by
  rw [lexLe_eq_not_lexLt]
  have h := lexLt_fmtDate hb ha hyb hya
  rcases hlt : lexLt (fmtDate b) (fmtDate a) <;> simp [hlt] at h ⊢ <;> omega

/-- The SQL range test on formatted dates is the calendar range test. -/
theorem dateInRange_fmtDate {e lo hi : Date} (he : e.validB = true)
    (hlo : lo.validB = true) (hhi : hi.validB = true) (hye : e.year ≤ 9999)
    (hylo : lo.year ≤ 9999) (hyhi : hi.year ≤ 9999) :
    dateInRange (fmtDate e) (fmtDate lo) (fmtDate hi) = true ↔
      toRD lo ≤ toRD e ∧ toRD e < toRD hi := by
  unfold dateInRange
  rw [Bool.and_eq_true, lexLe_fmtDate hlo he hylo hye, lexLt_fmtDate he hhi hye hyhi]

/-! ## Period windows -/

theorem fmt2_one : fmt2 1 = [48, 49] := rfl

theorem dateMk_year (y m dd : Nat) : (Date.mk y m dd).year = y := rfl

theorem dateMk_month (y m dd : Nat) : (Date.mk y m dd).month = m := rfl

theorem dateMk_day (y m dd : Nat) : (Date.mk y m dd).day = dd := rfl

theorem toRD_mk (y m dd : Nat) :
    toRD (Date.mk y m dd) = daysBeforeYear y + daysBeforeMonth y m + dd := rfl

theorem validB_mk (y m dd : Nat) :
    (Date.mk y m dd).validB = true ↔
      1 ≤ y ∧ 1 ≤ m ∧ m ≤ 12 ∧ 1 ≤ dd ∧ dd ≤ daysInMonth y m :=
  validB_iff (Date.mk y m dd)

/-- A valid date in a bounded year has a bounded ordinal. -/
theorem toRD_le_dby (d : Date) (hv : d.validB = true) {Y : Nat} (hy : d.year ≤ Y) :
    toRD d ≤ daysBeforeYear (Y + 1) := by
  have h1 := toRD_bounds d hv
  have h2 : daysBeforeYear (d.year + 1) ≤ daysBeforeYear (Y + 1) :=
    daysBeforeYear_mono (by omega)
  omega

/-- A valid date with a bounded ordinal has a bounded year. -/
theorem year_le_of_toRD (d : Date) (hv : d.validB = true) {Y : Nat}
    (h : toRD d ≤ daysBeforeYear (Y + 1)) : d.year ≤ Y := by
  by_contra hc
  have h1 := toRD_bounds d hv
  have h2 : daysBeforeYear (Y + 1) ≤ daysBeforeYear d.year :=
    daysBeforeYear_mono (by omega)
  omega

theorem dby_step (y : Nat) (hy : 1 ≤ y) :
    daysBeforeYear (y + 1) = daysBeforeYear y + daysInYear y := by
  rw [daysBeforeYear_succ, if_pos hy]

/-- Ordinals of valid dates up to year 9998 stay a week clear of the
five-digit years. -/
theorem toRD_cap (d : Date) (hv : d.validB = true) (hy : d.year ≤ 9998) :
    toRD d + 7 ≤ daysBeforeYear 10000 := by
  have h1 : toRD d ≤ daysBeforeYear 9999 := by
    have := toRD_le_dby d hv hy
    norm_num at this
    exact this
  have h2 : daysBeforeYear 10000 = daysBeforeYear 9999 + daysInYear 9999 := by
    have := dby_step 9999 (by omega)
    norm_num at this
    exact this
  have h3 := daysInYear_bounds 9999
  omega

/-- A valid date whose ordinal is at most `daysBeforeYear 10000` has a
four-digit year. -/
theorem year_cap (e : Date) (hv : e.validB = true)
    (h : toRD e ≤ daysBeforeYear 10000) : e.year ≤ 9999 := by
  refine year_le_of_toRD e hv ?_
  norm_num
  exact h

/-- The weekday offset never underflows the ordinal. -/
theorem weekday_le (d : Date) (hv : d.validB = true) : weekdayOf d + 1 ≤ toRD d := by
  have h1 := toRD_bounds d hv
  unfold weekdayOf
  omega

/-- Well-formedness of the period window of a valid generator date:
both bounds are valid dates in the formattable year range, and the
generator lies inside the half-open window. -/
theorem window_wf (p : Period) (d : Date) (hv : d.validB = true)
    (hy : d.year ≤ 9998) :
    (wStartD p d).validB = true ∧ (wEndD p d).validB = true ∧
      (wStartD p d).year ≤ 9999 ∧ (wEndD p d).year ≤ 9999 ∧
      toRD (wStartD p d) ≤ toRD d ∧ toRD d < toRD (wEndD p d) := by
  have hvu := (validB_iff d).mp hv
  have hb := toRD_bounds d hv
  have hcap := toRD_cap d hv hy
  have hwd := weekday_le d hv
  have hwd7 : weekdayOf d < 7 := Nat.mod_lt _ (by omega)
  have hrdd : toRD d = daysBeforeYear d.year + daysBeforeMonth d.year d.month + d.day :=
    rfl
  cases p
  case daily =>
      obtain ⟨he, hrd⟩ := toRD_fromRD (toRD d + 1) (by omega)
      refine ⟨hv, ?_, by simp only [wStartD]; omega, ?_, by simp only [wStartD]; omega,
        by simp only [wEndD]; omega⟩
      · simp only [wEndD]; exact he
      · simp only [wEndD]; exact year_cap _ he (by omega)
  case weekly =>
      obtain ⟨hs, hsrd⟩ := toRD_fromRD (toRD d - weekdayOf d) (by omega)
      obtain ⟨he, herd⟩ := toRD_fromRD (toRD d - weekdayOf d + 7) (by omega)
      refine ⟨?_, ?_, ?_, ?_, by simp only [wStartD]; omega, by simp only [wEndD]; omega⟩
      · simp only [wStartD]; exact hs
      · simp only [wEndD]; exact he
      · simp only [wStartD]; exact year_cap _ hs (by omega)
      · simp only [wEndD]; exact year_cap _ he (by omega)
  case monthly =>
      have hdm1 := daysInMonth_bounds d.year d.month
      have hdm1a := daysInMonth_bounds d.year 1
      have hdmS := daysInMonth_bounds d.year (d.month + 1)
      have hdmN := daysInMonth_bounds (d.year + 1) 1
      have hstepY := dby_step d.year (by omega)
      have hstepM : daysBeforeMonth d.year (d.month + 1) =
          daysBeforeMonth d.year d.month + daysInMonth d.year d.month := by
        rw [daysBeforeMonth_succ, if_pos (by omega)]
      have hinY := dbm_day_le d.year d.month d.day (by omega) (by omega) (by omega)
      by_cases h12 : d.month = 12
      · have h13 : daysBeforeMonth d.year 13 = daysInYear d.year := daysBeforeMonth_13 _
        refine ⟨?_, ?_, ?_, ?_, ?_, ?_⟩
        · simp only [wStartD]; rw [validB_mk]; omega
        · simp only [wEndD]; rw [if_pos h12, validB_mk]; omega
        · simp only [wStartD]; rw [dateMk_year]; omega
        · simp only [wEndD]; rw [if_pos h12, dateMk_year]; omega
        · simp only [wStartD]; rw [toRD_mk]; omega
        · have hR := toRD_mk (d.year + 1) 1 1
          simp only [wEndD]
          rw [if_pos h12, hR]
          have hz : daysBeforeMonth (d.year + 1) 1 = 0 := rfl
          rw [h12] at hrdd hinY
          omega
      · refine ⟨?_, ?_, ?_, ?_, ?_, ?_⟩
        · simp only [wStartD]; rw [validB_mk]; omega
        · simp only [wEndD]; rw [if_neg h12, validB_mk]; omega
        · simp only [wStartD]; rw [dateMk_year]; omega
        · simp only [wEndD]; rw [if_neg h12, dateMk_year]; omega
        · simp only [wStartD]; rw [toRD_mk]; omega
        · have hR := toRD_mk d.year (d.month + 1) 1
          simp only [wEndD]
          rw [if_neg h12, hR, hstepM]
          omega
  case yearly =>
      have hdm1a := daysInMonth_bounds d.year 1
      have hdmN := daysInMonth_bounds (d.year + 1) 1
      have hstepY := dby_step d.year (by omega)
      have hinY := dbm_day_le d.year d.month d.day (by omega) (by omega) (by omega)
      have hz1 : daysBeforeMonth d.year 1 = 0 := rfl
      have hz2 : daysBeforeMonth (d.year + 1) 1 = 0 := rfl
      refine ⟨?_, ?_, ?_, ?_, ?_, ?_⟩
      · simp only [wStartD]; rw [validB_mk]; omega
      · simp only [wEndD]; rw [validB_mk]; omega
      · simp only [wStartD]; rw [dateMk_year]; omega
      · simp only [wEndD]; rw [dateMk_year]; omega
      · have hR := toRD_mk d.year 1 1
        simp only [wStartD]
        rw [hR]
        omega
      · have hR := toRD_mk (d.year + 1) 1 1
        simp only [wEndD]
        rw [hR]
        omega

/-- Windows of one period tile the timeline: any valid date lying inside
the period window of `g` generates that same window. -/
theorem window_unique (p : Period) {g d : Date} (hg : g.validB = true)
    (hd : d.validB = true) (hgy : g.year ≤ 9998) (hdy : d.year ≤ 9998)
    (h1 : toRD (wStartD p g) ≤ toRD d) (h2 : toRD d < toRD (wEndD p g)) :
    wStartD p d = wStartD p g ∧ wEndD p d = wEndD p g := by
  obtain ⟨hsv, hev, _, _, _, _⟩ := window_wf p g hg hgy
  have hvd := (validB_iff d).mp hd
  have hvg := (validB_iff g).mp hg
  have hgb := toRD_bounds g hg
  have hdb := toRD_bounds d hd
  cases p
  case daily =>
      obtain ⟨he, hrd⟩ := toRD_fromRD (toRD g + 1) (by omega)
      simp only [wStartD, wEndD] at h1 h2 ⊢
      have heq : toRD d = toRD g := by omega
      have hdg : d = g := toRD_inj hd hg heq
      rw [hdg]
      exact ⟨rfl, rfl⟩
  case weekly =>
      have hwdg := weekday_le g hg
      have hwdd := weekday_le d hd
      obtain ⟨hs, hsrd⟩ := toRD_fromRD (toRD g - weekdayOf g) (by omega)
      obtain ⟨he, herd⟩ := toRD_fromRD (toRD g - weekdayOf g + 7) (by omega)
      simp only [wStartD, wEndD] at h1 h2 ⊢
      have hwg : weekdayOf g = (toRD g + 6) % 7 := rfl
      have hwd : weekdayOf d = (toRD d + 6) % 7 := rfl
      have heq : toRD d - weekdayOf d = toRD g - weekdayOf g := by omega
      rw [heq]
      exact ⟨rfl, rfl⟩
  case monthly =>
      have hR1 := toRD_mk g.year g.month 1
      have hA := toRD_lt_iff d (wStartD Period.monthly g) hd hsv
      have hB := toRD_lt_iff d (wEndD Period.monthly g) hd hev
      by_cases h12 : g.month = 12
      · have hR2 := toRD_mk (g.year + 1) 1 1
        simp only [wStartD, wEndD, if_pos h12, dateMk_year, dateMk_month,
          dateMk_day] at h1 h2 hA hB ⊢
        have hyeq : d.year = g.year := by omega
        have hmeq : d.month = g.month := by omega
        rw [hyeq, hmeq]
        exact ⟨rfl, by rw [if_pos h12]⟩
      · have hR2 := toRD_mk g.year (g.month + 1) 1
        simp only [wStartD, wEndD, if_neg h12, dateMk_year, dateMk_month,
          dateMk_day] at h1 h2 hA hB ⊢
        have hyeq : d.year = g.year := by omega
        have hmeq : d.month = g.month := by omega
        rw [hyeq, hmeq]
        exact ⟨rfl, by rw [if_neg h12]⟩
  case yearly =>
      have hR1 := toRD_mk g.year 1 1
      have hR2 := toRD_mk (g.year + 1) 1 1
      have hA := toRD_lt_iff d (wStartD Period.yearly g) hd hsv
      have hB := toRD_lt_iff d (wEndD Period.yearly g) hd hev
      simp only [wStartD, wEndD, dateMk_year, dateMk_month, dateMk_day]
        at h1 h2 hA hB ⊢
      have hyeq : d.year = g.year := by omega
      rw [hyeq]
      exact ⟨rfl, rfl⟩

/-- On a canonically formatted transaction date, the engine's window
strings are exactly the formatted spec window. -/
theorem codeWindow_eq (p : Period) (td : Date) (hv : td.validB = true) :
    codeWindow p td (fmtDate td) = (fmtDate (wStartD p td), fmtDate (wEndD p td)) := by
  cases p
  case daily => simp only [codeWindow, wStartD, wEndD]
  case weekly =>
      have hwd := weekday_le td hv
      have hb := toRD_bounds td hv
      obtain ⟨hs, hsrd⟩ := toRD_fromRD (toRD td - weekdayOf td) (by omega)
      simp only [codeWindow, wStartD, wEndD, hsrd]
  case monthly =>
      by_cases h12 : td.month = 12
      · have hbeq : (td.month == 12) = true := by simp [h12]
        simp only [codeWindow, wStartD, wEndD, hbeq, if_true, if_pos h12,
          fmtDate, dateMk_year, dateMk_month, dateMk_day, fmt2_one, List.append_assoc,
          List.cons_append, List.nil_append]
      · have hne : (td.month == 12) = false := by simp [h12]
        simp only [codeWindow, wStartD, wEndD, hne, Bool.false_eq_true, if_false,
          if_neg h12, fmtDate, dateMk_year, dateMk_month, dateMk_day, fmt2_one,
          List.append_assoc, List.cons_append, List.nil_append]
  case yearly =>
      simp only [codeWindow, wStartD, wEndD, fmtDate, dateMk_year, dateMk_month,
        dateMk_day, fmt2_one, List.append_assoc, List.cons_append, List.nil_append]

/-! ## Evaluation helpers for concrete runs -/

theorem beq_tt_ii : (TType.income == TType.income) = true := rfl

theorem beq_tt_ee : (TType.expense == TType.expense) = true := rfl

theorem beq_tt_ie : (TType.income == TType.expense) = false := rfl

theorem beq_tt_ei : (TType.expense == TType.income) = false := rfl

/-! ## Claim C5: balance -/

theorem balance_split (l : List Txn) :
    l.foldr
      (fun t acc => (match t.ttype with
        | TType.income => t.amount
        | TType.expense => -t.amount) + acc) 0 =
    sumAmounts (l.filter (fun t => t.ttype == TType.income)) -
      sumAmounts (l.filter (fun t => t.ttype == TType.expense)) := by
  induction l with
  | nil => simp [sumAmounts]
  | cons t l ih =>
      cases ht : t.ttype <;>
        · simp [sumAmounts, List.filter_cons, ht] at ih ⊢
          rw [ih]
          ring

/-- C5: `get_balance` is the sum of all income amounts minus the sum of
all expense amounts over the whole store, regardless of category or date,
and it is `0` (a value, not an absent result) on an empty store. -/
theorem c5_get_balance (db : DB) :
    get_balance db =
      sumAmounts (db.transactions.filter (fun t => t.ttype == TType.income)) -
        sumAmounts (db.transactions.filter (fun t => t.ttype == TType.expense)) ∧
    (db.transactions = [] → get_balance db = 0) := by
  refine ⟨balance_split db.transactions, fun he => ?_⟩
  unfold get_balance
  rw [he]
  rfl

/-- Witness for C5 at a concrete store: income 100 and expense 25.5 give
balance 74.5, and the empty store gives balance 0. -/
theorem c5_get_balance_witness :
    get_balance emptyDB = 0 ∧
      get_balance
        ⟨[], [⟨1, [], 100, TType.income, none, none⟩,
              ⟨2, [], (51 : Rat) / 2, TType.expense, none, none⟩], [], [], 1, 3, 1, 1⟩ =
        (149 : Rat) / 2 := by
  constructor
  · exact (c5_get_balance emptyDB).2 rfl
  · have h := (c5_get_balance
      ⟨[], [⟨1, [], 100, TType.income, none, none⟩,
            ⟨2, [], (51 : Rat) / 2, TType.expense, none, none⟩], [], [], 1, 3, 1, 1⟩).1
    rw [h]
    norm_num [sumAmounts, List.filter, beq_tt_ii, beq_tt_ee, beq_tt_ie, beq_tt_ei]

/-! ## Claim C7: addCategory is an idempotent get-or-create -/

/-- C7: `add_category` trims the name and is an idempotent get-or-create:
a second call whose name trims to the same string returns the same id,
leaves the store untouched (no duplicate row), and does not fail (the
uniqueness violation is swallowed in the source). -/
theorem c7_add_category_idempotent (db : DB) (n1 n2 : List Nat)
    (h : strip n1 = strip n2) :
    (add_category (add_category db n1).2 n2).1 = (add_category db n1).1 ∧
      (add_category (add_category db n1).2 n2).2 = (add_category db n1).2 := by
  unfold add_category
  rw [← h]
  cases hf : db.categories.find? (fun c => c.name == strip n1) with
  | some c => simp [hf]
  | none =>
      simp only [hf]
      rw [List.find?_append, hf]
      simp

/-- Witness for C7: adding `"  Food "` then `"Food"` to the empty store
returns id 1 both times and creates a single category row. -/
theorem c7_add_category_idempotent_witness :
    strip [32, 32, 70, 111, 111, 100, 32] = strip [70, 111, 111, 100] ∧
      (add_category (add_category emptyDB [32, 32, 70, 111, 111, 100, 32]).2
          [70, 111, 111, 100]).1 =
        (add_category emptyDB [32, 32, 70, 111, 111, 100, 32]).1 ∧
      (add_category (add_category emptyDB [32, 32, 70, 111, 111, 100, 32]).2
          [70, 111, 111, 100]).2 =
        (add_category emptyDB [32, 32, 70, 111, 111, 100, 32]).2 := by
  refine ⟨by decide, ?_⟩
  exact c7_add_category_idempotent emptyDB [32, 32, 70, 111, 111, 100, 32]
    [70, 111, 111, 100] (by decide)

/-! ## Claim C10: empty-string category argument -/

/-- C10: passing `""` as the category argument behaves exactly like
passing no category (Python truthiness of `if category:`): same result and
state, the persisted transaction has no category reference, no category
row is created, and the alert engine never runs — even for an expense. -/
theorem c10_empty_string_category (db : DB) (d : List Nat) (a : Rat)
    (t : List Nat) (desc : Option (List Nat)) :
    add_transaction db d a t (some []) desc = add_transaction db d a t none desc ∧
      ∀ n db', add_transaction db d a t (some []) desc = Except.ok (n, db') →
        db'.categories = db.categories ∧ db'.alerts = db.alerts ∧
          db'.catLimits = db.catLimits ∧
          ∃ tt, parseTType t = some tt ∧
            db'.transactions =
              db.transactions ++ [⟨db.nextTxnId, d, a, tt, none, desc⟩] := by
  constructor
  · rfl
  · intro n db' h
    unfold add_transaction at h
    cases hpd : parseDate d with
    | none => rw [hpd] at h; exact absurd h (by simp)
    | some td =>
        rw [hpd] at h
        cases hpt : parseTType t with
        | none => rw [hpt] at h; exact absurd h (by simp)
        | some tt =>
            rw [hpt] at h
            simp only [Except.ok.injEq, Prod.mk.injEq] at h
            obtain ⟨-, hdb⟩ := h
            subst hdb
            have hps : postState db d a tt (some []) desc =
                insertTx db d a tt none desc := by
              unfold postState resolveCat
              simp
            rw [hps]
            exact ⟨rfl, rfl, rfl, tt, rfl, rfl⟩

/-- Witness for C10 at a concrete call: an expense with category `""`. -/
theorem c10_empty_string_category_witness :
    add_transaction emptyDB [48, 48, 48, 53, 45, 48, 49, 45, 48, 50] 5 expenseTok
        (some []) none =
      add_transaction emptyDB [48, 48, 48, 53, 45, 48, 49, 45, 48, 50] 5 expenseTok
        none none ∧
    ∀ n db', add_transaction emptyDB [48, 48, 48, 53, 45, 48, 49, 45, 48, 50] 5
        expenseTok (some []) none = Except.ok (n, db') →
      db'.categories = emptyDB.categories ∧ db'.alerts = emptyDB.alerts ∧
        db'.catLimits = emptyDB.catLimits ∧
        ∃ tt, parseTType expenseTok = some tt ∧
          db'.transactions = emptyDB.transactions ++
            [⟨emptyDB.nextTxnId, [48, 48, 48, 53, 45, 48, 49, 45, 48, 50], 5, tt,
              none, none⟩] :=
  c10_empty_string_category emptyDB [48, 48, 48, 53, 45, 48, 49, 45, 48, 50] 5
    expenseTok none

/-! ## Claim C3: addTransaction validation -/

/-- Counterexample to C3 as stated: `"0005-1-5"` is a valid calendar date
but is *not* written in zero-padded `YYYY-MM-DD` form, yet
`add_transaction` accepts it without raising — the `%Y-%m-%d` parse does
not require zero padding, so "raises iff not a valid calendar date in
YYYY-MM-DD form" fails in the only-if direction. -/
theorem c3_counterexample :
    canonicalDate [48, 48, 48, 53, 45, 49, 45, 53] = false ∧
      parseDate [48, 48, 48, 53, 45, 49, 45, 53] = some ⟨5, 1, 5⟩ ∧
      (add_transaction emptyDB [48, 48, 48, 53, 45, 49, 45, 53] 1 incomeTok
          none none).isOk = true := by
  refine ⟨by decide, by decide, ?_⟩
  rfl

/-- C3 (amended): `add_transaction` fails, surfacing a `ValidationError`,
if and only if the date fails the (lenient, padding-optional) `%Y-%m-%d`
parse or the type is not `income`/`expense`; a bad date is reported before
a bad type, and on failure no state is produced — validation precedes
every write in the source. -/
theorem c3_validation (db : DB) (d : List Nat) (a : Rat) (t : List Nat)
    (cat desc : Option (List Nat)) :
    ((∃ e, add_transaction db d a t cat desc = Except.error e) ↔
      (parseDate d = none ∨ parseTType t = none)) ∧
    (parseDate d = none →
      add_transaction db d a t cat desc = Except.error Err.badDateFormat) ∧
    (parseDate d ≠ none → parseTType t = none →
      add_transaction db d a t cat desc = Except.error Err.badType) := by
  unfold add_transaction
  cases hpd : parseDate d with
  | none => simp
  | some td =>
      cases hpt : parseTType t with
      | none => simp
      | some tt => simp

/-- Witness for C3 at concrete inputs: a malformed date errs, a bad type
errs, a well-formed call does not. -/
theorem c3_validation_witness :
    ((∃ e, add_transaction emptyDB [48, 48] 1 incomeTok none none = Except.error e) ↔
      (parseDate [48, 48] = none ∨ parseTType incomeTok = none)) ∧
      (parseDate [48, 48] = none →
        add_transaction emptyDB [48, 48] 1 incomeTok none none =
          Except.error Err.badDateFormat) ∧
      (parseDate [48, 48] ≠ none → parseTType incomeTok = none →
        add_transaction emptyDB [48, 48] 1 incomeTok none none =
          Except.error Err.badType) :=
  c3_validation emptyDB [48, 48] 1 incomeTok none none

/-! ## Effect lemmas for the write operations -/

theorem add_category_fields (db : DB) (n : List Nat) :
    (add_category db n).2.transactions = db.transactions ∧
      (add_category db n).2.catLimits = db.catLimits ∧
      (add_category db n).2.alerts = db.alerts ∧
      (add_category db n).2.nextTxnId = db.nextTxnId ∧
      (add_category db n).2.nextAlertId = db.nextAlertId := by
  unfold add_category
  cases hf : db.categories.find? (fun c => c.name == strip n) <;> simp

theorem resolveCat_fields (db : DB) (cat : Option (List Nat)) :
    (resolveCat db cat).2.transactions = db.transactions ∧
      (resolveCat db cat).2.catLimits = db.catLimits ∧
      (resolveCat db cat).2.alerts = db.alerts ∧
      (resolveCat db cat).2.nextTxnId = db.nextTxnId ∧
      (resolveCat db cat).2.nextAlertId = db.nextAlertId := by
  unfold resolveCat
  cases cat with
  | none => exact ⟨rfl, rfl, rfl, rfl, rfl⟩
  | some s =>
      by_cases hs : s = []
      · simp [hs]
      · simp only [if_neg hs]
        exact add_category_fields db s

/-- Complete case analysis of the alert engine: either the store is
untouched, or (a limit exists, the date parses, the dedup search came up
empty, spending exceeded the limit) exactly one alert row is appended,
dated with the raw transaction date. -/
theorem check_alerts_cases (db : DB) (cid : Nat) (s : List Nat) :
    check_and_create_alerts db cid s = db ∨
    ∃ lim td,
      db.catLimits.find? (fun l => l.categoryId == cid) = some lim ∧
      parseDate s = some td ∧
      db.alerts.find? (fun a2 => a2.categoryId == cid &&
        dateInRange a2.alertDate (codeWindow lim.period td s).1
          (codeWindow lim.period td s).2) = none ∧
      check_and_create_alerts db cid s =
        { db with
            alerts := db.alerts ++
              [⟨db.nextAlertId, cid, s,
                sumAmounts (db.transactions.filter (fun t =>
                  t.categoryId == some cid && t.ttype == TType.expense &&
                    dateInRange t.date (codeWindow lim.period td s).1
                      (codeWindow lim.period td s).2)),
                lim.limitAmount, lim.period, false⟩],
            nextAlertId := db.nextAlertId + 1 } := by
  rcases hf : db.catLimits.find? (fun l => l.categoryId == cid) with _ | lim
  · left
    unfold check_and_create_alerts
    rw [hf]
  · rcases hp : parseDate s with _ | td
    · left
      unfold check_and_create_alerts
      rw [hf, hp]
    · by_cases hlt : lim.limitAmount <
        sumAmounts (db.transactions.filter (fun t =>
          t.categoryId == some cid && t.ttype == TType.expense &&
            dateInRange t.date (codeWindow lim.period td s).1
              (codeWindow lim.period td s).2))
      · rcases ha : db.alerts.find? (fun a2 => a2.categoryId == cid &&
            dateInRange a2.alertDate (codeWindow lim.period td s).1
              (codeWindow lim.period td s).2) with _ | a0
        · right
          refine ⟨lim, td, hf, rfl, ha, ?_⟩
          unfold check_and_create_alerts
          rw [hf, hp]
          dsimp only
          rw [if_pos hlt, ha]
        · left
          unfold check_and_create_alerts
          rw [hf, hp]
          dsimp only
          rw [if_pos hlt, ha]
      · left
        unfold check_and_create_alerts
        rw [hf, hp]
        dsimp only
        rw [if_neg hlt]

theorem check_alerts_fields (db : DB) (cid : Nat) (s : List Nat) :
    (check_and_create_alerts db cid s).transactions = db.transactions ∧
      (check_and_create_alerts db cid s).categories = db.categories ∧
      (check_and_create_alerts db cid s).catLimits = db.catLimits ∧
      (check_and_create_alerts db cid s).nextTxnId = db.nextTxnId := by
  rcases check_alerts_cases db cid s with h | ⟨lim, td, _, _, _, h⟩ <;>
    · rw [h]
      exact ⟨rfl, rfl, rfl, rfl⟩

theorem postState_fields (db : DB) (d : List Nat) (a : Rat) (tt : TType)
    (cat desc : Option (List Nat)) :
    (postState db d a tt cat desc).transactions =
      db.transactions ++ [⟨db.nextTxnId, d, a, tt, (resolveCat db cat).1, desc⟩] ∧
      (postState db d a tt cat desc).catLimits = db.catLimits := by
  obtain ⟨rt, rl, ra, rn, rna⟩ := resolveCat_fields db cat
  have h2t : (insertTx (resolveCat db cat).2 d a tt (resolveCat db cat).1 desc).transactions =
      db.transactions ++ [⟨db.nextTxnId, d, a, tt, (resolveCat db cat).1, desc⟩] := by
    unfold insertTx
    simp [rt, rn]
  have h2l : (insertTx (resolveCat db cat).2 d a tt (resolveCat db cat).1 desc).catLimits =
      db.catLimits := by
    unfold insertTx
    simp [rl]
  unfold postState
  by_cases htt : tt = TType.expense
  · rw [if_pos htt]
    cases hr1 : (resolveCat db cat).1 with
    | none =>
        simp only [hr1] at h2t ⊢
        exact ⟨h2t, h2l⟩
    | some cid =>
        simp only [hr1] at h2t ⊢
        by_cases hc : cid ≠ 0
        · rw [if_pos hc]
          obtain ⟨ct, cc, cl, cn⟩ :=
            check_alerts_fields (insertTx (resolveCat db cat).2 d a tt (some cid) desc) cid d
          rw [ct, cl]
          exact ⟨h2t, h2l⟩
        · rw [if_neg hc]
          exact ⟨h2t, h2l⟩
  · rw [if_neg htt]
    exact ⟨h2t, h2l⟩

/-! ## Claim C9: amounts are not validated -/

/-- Counterexample to C9 as stated: `add_transaction` with amount `-5`
succeeds and persists the negative amount — the source never checks the
sign of `amount`, so "every persisted transaction has a non-negative
amount" is false. -/
theorem c9_counterexample :
    (add_transaction emptyDB [48, 48, 48, 53, 45, 48, 49, 45, 48, 49] (-5)
        expenseTok none none).isOk = true ∧
      storedAmounts (add_transaction emptyDB [48, 48, 48, 53, 45, 48, 49, 45, 48, 49]
          (-5) expenseTok none none) = [-5] ∧
      ((-5 : Rat) < 0) := by
  refine ⟨rfl, rfl, by norm_num⟩

/-- C9 (amended): `add_transaction` stores the amount argument verbatim,
with no sign validation: every successful call appends exactly one row
whose `amount` field is the argument, whatever its sign. -/
theorem c9_amount_stored_verbatim (db : DB) (d : List Nat) (a : Rat)
    (t : List Nat) (cat desc : Option (List Nat)) (n : Nat) (db' : DB)
    (h : add_transaction db d a t cat desc = Except.ok (n, db')) :
    ∃ tt, parseTType t = some tt ∧
      db'.transactions = db.transactions ++
        [⟨db.nextTxnId, d, a, tt, (resolveCat db cat).1, desc⟩] := by
  unfold add_transaction at h
  cases hpd : parseDate d with
  | none => rw [hpd] at h; exact absurd h (by simp)
  | some td =>
      rw [hpd] at h
      cases hpt : parseTType t with
      | none => rw [hpt] at h; exact absurd h (by simp)
      | some tt =>
          rw [hpt] at h
          simp only [Except.ok.injEq, Prod.mk.injEq] at h
          obtain ⟨-, hdb⟩ := h
          subst hdb
          exact ⟨tt, rfl, (postState_fields db d a tt cat desc).1⟩

/-- Witness for the amended C9 at the concrete call with amount `-5`. -/
theorem c9_amount_stored_verbatim_witness :
    add_transaction emptyDB [48, 48, 48, 53, 45, 48, 49, 45, 48, 49] (-5)
        expenseTok none none =
      Except.ok (1,
        ⟨[], [⟨1, [48, 48, 48, 53, 45, 48, 49, 45, 48, 49], -5, TType.expense,
          none, none⟩], [], [], 1, 2, 1, 1⟩) ∧
    ∃ tt, parseTType expenseTok = some tt ∧
      (⟨[], [⟨1, [48, 48, 48, 53, 45, 48, 49, 45, 48, 49], -5, TType.expense,
          none, none⟩], [], [], 1, 2, 1, 1⟩ : DB).transactions =
        emptyDB.transactions ++
          [⟨emptyDB.nextTxnId, [48, 48, 48, 53, 45, 48, 49, 45, 48, 49], -5, tt,
            (resolveCat emptyDB none).1, none⟩] :=
  ⟨rfl, c9_amount_stored_verbatim emptyDB [48, 48, 48, 53, 45, 48, 49, 45, 48, 49]
    (-5) expenseTok none none 1 _ rfl⟩

/-! ## Claim C6: listTransactions ordering and limit -/

instance : DecidableRel rowOrd := fun a b => by
  unfold rowOrd; infer_instance

instance : IsTotal Txn txnOrd :=
  ⟨by
    intro a b
    unfold txnOrd
    rcases h1 : lexLt b.date a.date
    · rcases h2 : lexLt a.date b.date
      · have he : a.date = b.date := lexLt_antisymm h2 h1
        rcases Nat.le_total b.id a.id with h | h
        · exact Or.inl (Or.inr ⟨he, h⟩)
        · exact Or.inr (Or.inr ⟨he.symm, h⟩)
      · exact Or.inr (Or.inl rfl)
    · exact Or.inl (Or.inl rfl)⟩

instance : IsTrans Txn txnOrd :=
  ⟨by
    intro a b c hab hbc
    unfold txnOrd at hab hbc ⊢
    rcases hab with h1 | ⟨e1, i1⟩
    · rcases hbc with h2 | ⟨e2, i2⟩
      · exact Or.inl (lexLt_trans h2 h1)
      · exact Or.inl (e2 ▸ h1)
    · rcases hbc with h2 | ⟨e2, i2⟩
      · exact Or.inl (e1 ▸ h2)
      · exact Or.inr ⟨e1.trans e2, le_trans i2 i1⟩⟩

/-- Counterexample to C6 as stated: `limit = 0` is falsy in Python
(`if limit:`), so a provided limit of 0 does not truncate to 0 rows —
the full table comes back. -/
theorem c6_counterexample :
    (list_transactions
        ⟨[], [⟨1, [48, 48, 48, 53, 45, 48, 49, 45, 48, 49], 1, TType.income,
          none, none⟩], [], [], 1, 2, 1, 1⟩
        (some 0)).length = 1 ∧ (1 : Nat) ≠ 0 :=
  ⟨rfl, by decide⟩

/-- C6 (amended): `list_transactions` returns the rows sorted by the
stored date string descending (lexicographically — calendar order for
zero-padded dates) and id descending, so same-day rows come
most-recently-inserted first; a *positive* limit truncates to at most
that many rows, while a limit of 0, a negative limit (SQLite: negative
`LIMIT` means unlimited), or no limit returns every row. -/
theorem c6_list_transactions (db : DB) (k : Int) :
    List.Sorted rowOrd (list_transactions db none) ∧
      (list_transactions db none).Perm (db.transactions.map (toRow db.categories)) ∧
      (0 < k →
        list_transactions db (some k) = (list_transactions db none).take k.toNat) ∧
      (k ≤ 0 → list_transactions db (some k) = list_transactions db none) ∧
      List.Sorted rowOrd (list_transactions db (some k)) := by
  have hs : List.Sorted txnOrd (db.transactions.insertionSort txnOrd) :=
    List.sorted_insertionSort txnOrd _
  have hsm : List.Sorted rowOrd
      ((db.transactions.insertionSort txnOrd).map (toRow db.categories)) := by
    rw [List.Sorted, List.pairwise_map]
    exact hs.imp (fun h => h)
  have hperm : ((db.transactions.insertionSort txnOrd).map (toRow db.categories)).Perm
      (db.transactions.map (toRow db.categories)) :=
    (List.perm_insertionSort txnOrd db.transactions).map _
  have hnone : list_transactions db none =
      (db.transactions.insertionSort txnOrd).map (toRow db.categories) := rfl
  refine ⟨hnone ▸ hsm, hnone ▸ hperm, ?_, ?_, ?_⟩
  · intro hk
    have h1 : k ≠ 0 := by omega
    have h2 : (0 : Int) ≤ k := by omega
    simp [list_transactions, h1, h2]
  · intro hk
    by_cases h1 : k = 0
    · simp [list_transactions, h1]
    · have h2 : ¬ (0 : Int) ≤ k := by omega
      simp [list_transactions, h1, h2]
  · by_cases h1 : k = 0
    · simpa [list_transactions, h1] using hsm
    · by_cases h2 : (0 : Int) ≤ k
      · have : List.Sorted rowOrd
            (((db.transactions.insertionSort txnOrd).map (toRow db.categories)).take
              k.toNat) :=
          List.Pairwise.sublist (List.take_sublist _ _) hsm
        simpa [list_transactions, h1, h2] using this
      · simpa [list_transactions, h1, h2] using hsm

/-- Witness for C6 at a two-row store and limit 1. -/
theorem c6_list_transactions_witness :
    (0 : Int) < 1 ∧ (-3 : Int) ≤ 0 ∧
      (list_transactions
          ⟨[], [⟨1, [48, 48, 48, 53, 45, 48, 49, 45, 48, 49], 1, TType.income,
              none, none⟩,
            ⟨2, [48, 48, 48, 53, 45, 48, 49, 45, 48, 50], 1, TType.income,
              none, none⟩], [], [], 1, 3, 1, 1⟩ (some 1) =
        (list_transactions
            ⟨[], [⟨1, [48, 48, 48, 53, 45, 48, 49, 45, 48, 49], 1, TType.income,
                none, none⟩,
              ⟨2, [48, 48, 48, 53, 45, 48, 49, 45, 48, 50], 1, TType.income,
                none, none⟩], [], [], 1, 3, 1, 1⟩ none).take (1 : Int).toNat) ∧
      (list_transactions
          ⟨[], [⟨1, [48, 48, 48, 53, 45, 48, 49, 45, 48, 49], 1, TType.income,
              none, none⟩,
            ⟨2, [48, 48, 48, 53, 45, 48, 49, 45, 48, 50], 1, TType.income,
              none, none⟩], [], [], 1, 3, 1, 1⟩ (some (-3)) =
        list_transactions
          ⟨[], [⟨1, [48, 48, 48, 53, 45, 48, 49, 45, 48, 49], 1, TType.income,
              none, none⟩,
            ⟨2, [48, 48, 48, 53, 45, 48, 49, 45, 48, 50], 1, TType.income,
              none, none⟩], [], [], 1, 3, 1, 1⟩ none) := by
  refine ⟨by norm_num, by norm_num, ?_, ?_⟩
  · exact (c6_list_transactions _ 1).2.2.1 (by norm_num)
  · exact (c6_list_transactions _ (-3)).2.2.2.1 (by norm_num)

/-! ## Claim C8: removeLimit -/

/-- The alert engine cannot touch the alerts of a category that has no
limit row. -/
theorem check_alertsFor (db : DB) (cid : Nat) (s : List Nat) (cid0 : Nat)
    (hnl : noLimitFor db cid0) :
    alertsFor (check_and_create_alerts db cid s) cid0 = alertsFor db cid0 := by
  rcases check_alerts_cases db cid s with h | ⟨lim, td, hf, hp, ha, h⟩
  · rw [h]
  · have hmem := List.mem_of_find?_eq_some hf
    have hpa := List.find?_some hf
    have hne : ¬(cid == cid0) = true := by
      intro hc
      have : lim.categoryId = cid := by simpa using hpa
      have h0 := (List.find?_eq_none.mp hnl) lim hmem
      simp only [beq_iff_eq] at h0 hc
      exact h0 (this.trans hc)
    rw [h]
    unfold alertsFor
    simp only [List.filter_append, List.filter_cons, List.filter_nil]
    simp [hne]

/-- One `add_transaction` call can neither give a limit to a limitless
category nor create an alert for it. -/
theorem addTx_no_limit_no_alert (db : DB) (c : TxCall) (cid0 : Nat)
    (hnl : noLimitFor db cid0) (n : Nat) (db' : DB)
    (h : add_transaction db c.date c.amount c.ttype c.category c.descr =
      Except.ok (n, db')) :
    noLimitFor db' cid0 ∧ alertsFor db' cid0 = alertsFor db cid0 := by
  unfold add_transaction at h
  cases hpd : parseDate c.date with
  | none => rw [hpd] at h; exact absurd h (by simp)
  | some td =>
      rw [hpd] at h
      cases hpt : parseTType c.ttype with
      | none => rw [hpt] at h; exact absurd h (by simp)
      | some tt =>
          rw [hpt] at h
          simp only [Except.ok.injEq, Prod.mk.injEq] at h
          obtain ⟨-, hdb⟩ := h
          subst hdb
          obtain ⟨rt, rl, ra, rn, rna⟩ := resolveCat_fields db c.category
          have hlim : (postState db c.date c.amount tt c.category c.descr).catLimits =
              db.catLimits := (postState_fields db c.date c.amount tt c.category c.descr).2
          constructor
          · unfold noLimitFor
            rw [hlim]
            exact hnl
          · unfold postState
            have h2a : (insertTx (resolveCat db c.category).2 c.date c.amount tt
                (resolveCat db c.category).1 c.descr).alerts = db.alerts := by
              unfold insertTx
              simpa using ra
            have h2l : noLimitFor (insertTx (resolveCat db c.category).2 c.date c.amount tt
                (resolveCat db c.category).1 c.descr) cid0 := by
              unfold noLimitFor insertTx
              simp only
              rw [rl]
              exact hnl
            by_cases htt : tt = TType.expense
            · rw [if_pos htt]
              cases hr1 : (resolveCat db c.category).1 with
              | none =>
                  rw [hr1] at h2a
                  dsimp only
                  unfold alertsFor
                  rw [h2a]
              | some cid =>
                  rw [hr1] at h2a h2l
                  dsimp only
                  by_cases hc : cid ≠ 0
                  · rw [if_pos hc]
                    rw [check_alertsFor _ cid _ cid0 h2l]
                    unfold alertsFor
                    rw [h2a]
                  · rw [if_neg hc]
                    unfold alertsFor
                    rw [h2a]
            · rw [if_neg htt]
              unfold alertsFor
              rw [h2a]

/-- Any sequence of `add_transaction` calls leaves a limitless category's
alerts unchanged. -/
theorem runCalls_alertsFor (cid0 : Nat) (calls : List TxCall) : ∀ db : DB,
    noLimitFor db cid0 →
      noLimitFor (runCalls db calls) cid0 ∧
        alertsFor (runCalls db calls) cid0 = alertsFor db cid0 := by
  induction calls with
  | nil => exact fun db h => ⟨h, rfl⟩
  | cons c rest ih =>
      intro db h
      unfold runCalls
      cases hs : add_transaction db c.date c.amount c.ttype c.category c.descr with
      | ok r =>
          obtain ⟨h1, h2⟩ := addTx_no_limit_no_alert db c cid0 h r.1 r.2
            (by rw [hs])
          obtain ⟨h3, h4⟩ := ih r.2 h1
          exact ⟨h3, h4.trans h2⟩
      | error e => exact ih db h

/-- C8: `remove_category_limit` deletes the limit row of the named
category when one exists and returns `true` exactly in that case (a
boolean, not an exception); nothing else in the store changes, the
category is limitless afterwards, and after a removal no later sequence
of `add_transaction` calls can produce an alert for that category. -/
theorem c8_remove_limit (db : DB) (name : List Nat) :
    ((remove_category_limit db name).1 = true ↔
      ∃ c, db.categories.find? (fun c2 => c2.name == name) = some c ∧
        ∃ l ∈ db.catLimits, l.categoryId = c.id) ∧
    (remove_category_limit db name).2.categories = db.categories ∧
    (remove_category_limit db name).2.transactions = db.transactions ∧
    (remove_category_limit db name).2.alerts = db.alerts ∧
    (∀ c, db.categories.find? (fun c2 => c2.name == name) = some c →
      noLimitFor (remove_category_limit db name).2 c.id) ∧
    (∀ c, db.categories.find? (fun c2 => c2.name == name) = some c →
      ∀ calls : List TxCall,
        alertsFor (runCalls (remove_category_limit db name).2 calls) c.id =
          alertsFor (remove_category_limit db name).2 c.id) := by
  have hrm : ∀ c, db.categories.find? (fun c2 => c2.name == name) = some c →
      noLimitFor (remove_category_limit db name).2 c.id := by
    intro c hc
    unfold remove_category_limit
    rw [hc]
    unfold noLimitFor
    simp only
    rw [List.find?_eq_none]
    intro l hl
    have := (List.mem_filter.mp hl).2
    simp_all
  refine ⟨?_, ?_, ?_, ?_, hrm, fun c hc calls => (runCalls_alertsFor c.id calls _ (hrm c hc)).2⟩
  · unfold remove_category_limit
    cases hc : db.categories.find? (fun c2 => c2.name == name) with
    | none => simp [hc]
    | some c =>
        simp only [decide_eq_true_eq, List.length_filter_lt_length_iff_exists]
        constructor
        · rintro ⟨l, hl, hpl⟩
          exact ⟨c, rfl, l, hl, by simpa using hpl⟩
        · rintro ⟨c2, hc2, l, hl, hpl⟩
          have : c2 = c := by
            simpa using hc2.symm
          subst this
          exact ⟨l, hl, by simp [hpl]⟩
  · unfold remove_category_limit
    cases hc : db.categories.find? (fun c2 => c2.name == name) <;> rfl
  · unfold remove_category_limit
    cases hc : db.categories.find? (fun c2 => c2.name == name) <;> rfl
  · unfold remove_category_limit
    cases hc : db.categories.find? (fun c2 => c2.name == name) <;> rfl

/-- Concrete check of the removeLimit theorem: one category `Food`
(id 1) with a monthly limit of 50; removing the limit returns `true`,
leaves `Food` limitless, and a subsequent over-limit expense creates no
alert for it. -/
theorem c8_remove_limit_witness :
    (remove_category_limit ⟨[⟨1, [70, 111, 111, 100]⟩], [], [⟨1, 1, 50, Period.monthly⟩],
      [], 2, 1, 2, 1⟩ [70, 111, 111, 100]).1 = true ∧
    noLimitFor (remove_category_limit ⟨[⟨1, [70, 111, 111, 100]⟩], [],
      [⟨1, 1, 50, Period.monthly⟩], [], 2, 1, 2, 1⟩ [70, 111, 111, 100]).2 1 ∧
    alertsFor (runCalls (remove_category_limit ⟨[⟨1, [70, 111, 111, 100]⟩], [],
        [⟨1, 1, 50, Period.monthly⟩], [], 2, 1, 2, 1⟩ [70, 111, 111, 100]).2
      [⟨[48, 48, 48, 53, 45, 48, 49, 45, 48, 49], 60, expenseTok,
        some [70, 111, 111, 100], none⟩]) 1 =
      alertsFor (remove_category_limit ⟨[⟨1, [70, 111, 111, 100]⟩], [],
        [⟨1, 1, 50, Period.monthly⟩], [], 2, 1, 2, 1⟩ [70, 111, 111, 100]).2 1 := by
  have h := c8_remove_limit ⟨[⟨1, [70, 111, 111, 100]⟩], [], [⟨1, 1, 50, Period.monthly⟩],
    [], 2, 1, 2, 1⟩ [70, 111, 111, 100]
  exact ⟨h.1.mpr ⟨⟨1, [70, 111, 111, 100]⟩, rfl, ⟨1, 1, 50, Period.monthly⟩,
    List.mem_cons_self _ _, rfl⟩, h.2.2.2.2.1 ⟨1, [70, 111, 111, 100]⟩ rfl,
    h.2.2.2.2.2 ⟨1, [70, 111, 111, 100]⟩ rfl _⟩

/-! ## Claim C2: weekly window -/

/-- C2: the weekly window of a date starts on the Monday of that date's
week (weekday 0) and spans exactly seven days half-open; the engine's
window strings on a canonically formatted date admit exactly the dates
of those seven days; a Monday and the following Sunday share a weekly
window, while the Monday after falls in a different one. -/
theorem c2_weekly_window (d : Date) (hv : d.validB = true) (hy : d.year ≤ 9998) :
    weekdayOf (wStartD Period.weekly d) = 0 ∧
    toRD (wStartD Period.weekly d) ≤ toRD d ∧
    toRD d < toRD (wEndD Period.weekly d) ∧
    toRD (wEndD Period.weekly d) = toRD (wStartD Period.weekly d) + 7 ∧
    (∀ e : Date, e.validB = true → e.year ≤ 9999 →
      (dateInRange (fmtDate e) (codeWindow Period.weekly d (fmtDate d)).1
          (codeWindow Period.weekly d (fmtDate d)).2 = true ↔
        toRD (wStartD Period.weekly d) ≤ toRD e ∧
          toRD e < toRD (wStartD Period.weekly d) + 7)) ∧
    (weekdayOf d = 0 →
      wStartD Period.weekly (fromRD (toRD d + 6)) = wStartD Period.weekly d ∧
      wStartD Period.weekly (fromRD (toRD d + 7)) ≠ wStartD Period.weekly d) := by
  have hwd := weekday_le d hv
  have hmd : weekdayOf d = (toRD d + 6) % 7 := rfl
  obtain ⟨hs, hsrd⟩ := toRD_fromRD (toRD d - weekdayOf d) (by omega)
  obtain ⟨he, herd⟩ := toRD_fromRD (toRD d - weekdayOf d + 7) (by omega)
  obtain ⟨hsv, hev, hsy, hey, hin1, hin2⟩ := window_wf Period.weekly d hv hy
  have hstart : wStartD Period.weekly d = fromRD (toRD d - weekdayOf d) := rfl
  have hend : wEndD Period.weekly d = fromRD (toRD d - weekdayOf d + 7) := rfl
  refine ⟨?_, hin1, hin2, ?_, ?_, ?_⟩
  · rw [hstart]
    unfold weekdayOf
    rw [← hmd, hsrd]
    omega
  · rw [hstart, hend, hsrd, herd]
  · intro e hve hye
    rw [codeWindow_eq Period.weekly d hv, prodFst, prodSnd,
      dateInRange_fmtDate hve hsv hev hye hsy hey, hstart, hend, hsrd, herd]
  · intro hm
    obtain ⟨hv6, hrd6⟩ := toRD_fromRD (toRD d + 6) (by omega)
    obtain ⟨hv7, hrd7⟩ := toRD_fromRD (toRD d + 7) (by omega)
    have hw6 : weekdayOf (fromRD (toRD d + 6)) = (toRD d + 6 + 6) % 7 := by
      unfold weekdayOf
      rw [hrd6]
    have hw7 : weekdayOf (fromRD (toRD d + 7)) = (toRD d + 7 + 6) % 7 := by
      unfold weekdayOf
      rw [hrd7]
    constructor
    · have hkey : toRD (fromRD (toRD d + 6)) - weekdayOf (fromRD (toRD d + 6)) =
          toRD d - weekdayOf d := by
        rw [hrd6, hw6]
        omega
      simp only [wStartD]
      rw [hkey]
    · simp only [wStartD]
      intro hcontra
      have hT := congrArg toRD hcontra
      obtain ⟨hva, hra⟩ := toRD_fromRD
        (toRD (fromRD (toRD d + 7)) - weekdayOf (fromRD (toRD d + 7)))
        (by rw [hrd7, hw7]; omega)
      rw [hra, hsrd] at hT
      rw [hrd7, hw7] at hT
      omega

/-- Concrete check of the weekly-window theorem at 0005-01-03, a
Monday: its window starts on a Monday, spans seven days, and the
following Sunday shares it while the next Monday does not. -/
theorem c2_weekly_window_witness :
    (Date.mk 5 1 3).validB = true ∧ (5 : Nat) ≤ 9998 ∧
    weekdayOf ⟨5, 1, 3⟩ = 0 ∧
    weekdayOf (wStartD Period.weekly ⟨5, 1, 3⟩) = 0 ∧
    toRD (wEndD Period.weekly ⟨5, 1, 3⟩) = toRD (wStartD Period.weekly ⟨5, 1, 3⟩) + 7 ∧
    wStartD Period.weekly (fromRD (toRD ⟨5, 1, 3⟩ + 6)) = wStartD Period.weekly ⟨5, 1, 3⟩ ∧
    wStartD Period.weekly (fromRD (toRD ⟨5, 1, 3⟩ + 7)) ≠ wStartD Period.weekly ⟨5, 1, 3⟩ := by
  have h := c2_weekly_window ⟨5, 1, 3⟩ (by decide) (by decide)
  exact ⟨by decide, by decide, by decide, h.1, h.2.2.2.1,
    (h.2.2.2.2.2 (by decide)).1, (h.2.2.2.2.2 (by decide)).2⟩

/-! ## Claim C4: monthly report -/

instance : IsTotal CatEntry entryOrd := ⟨fun a b => le_total b.net a.net⟩

instance : IsTrans CatEntry entryOrd := ⟨fun _ _ _ h1 h2 => le_trans h2 h1⟩

/-- The report's string window test accepts a canonical date exactly
when it lies in the calendar month, rolling the year at month 12. -/
theorem monthWindow_mem (year month : Nat) (hy1 : 1 ≤ year) (hy2 : year ≤ 9998)
    (hm1 : 1 ≤ month) (hm2 : month ≤ 12) (e : Date) (hve : e.validB = true)
    (hye : e.year ≤ 9999) :
    dateInRange (fmtDate e)
        (fmt4 year ++ 45 :: fmt2 month ++ [45, 48, 49])
        (if month == 12 then fmt4 (year + 1) ++ [45, 48, 49, 45, 48, 49]
         else fmt4 year ++ 45 :: fmt2 (month + 1) ++ [45, 48, 49]) = true ↔
      (e.year = year ∧ e.month = month) := by
  have hvg : (Date.mk year month 1).validB = true := by
    rw [validB_mk]
    have := daysInMonth_bounds year month
    omega
  obtain ⟨hsv, hev, hsy, hey, _, _⟩ :=
    window_wf Period.monthly ⟨year, month, 1⟩ hvg hy2
  have hcw := codeWindow_eq Period.monthly ⟨year, month, 1⟩ hvg
  have hstart : (fmt4 year ++ 45 :: fmt2 month ++ [45, 48, 49]) =
      fmtDate (wStartD Period.monthly ⟨year, month, 1⟩) := congrArg Prod.fst hcw
  have hstop : (if month == 12 then fmt4 (year + 1) ++ [45, 48, 49, 45, 48, 49]
      else fmt4 year ++ 45 :: fmt2 (month + 1) ++ [45, 48, 49]) =
      fmtDate (wEndD Period.monthly ⟨year, month, 1⟩) := congrArg Prod.snd hcw
  rw [hstart, hstop, dateInRange_fmtDate hve hsv hev hye hsy hey]
  have hA := toRD_lt_iff e (wStartD Period.monthly ⟨year, month, 1⟩) hve hsv
  have hB := toRD_lt_iff e (wEndD Period.monthly ⟨year, month, 1⟩) hve hev
  have hvu := (validB_iff e).mp hve
  by_cases h12 : month = 12
  · simp only [wStartD, wEndD, dateMk_year, dateMk_month, dateMk_day,
      if_pos h12] at hA hB ⊢
    omega
  · simp only [wStartD, wEndD, dateMk_year, dateMk_month, dateMk_day,
      if_neg h12] at hA hB ⊢
    omega

/-- On a store whose date strings are all canonical, the report's string
filter is the calendar-month filter. -/
theorem monthFilter_eq (db : DB) (year month : Nat) (hy1 : 1 ≤ year)
    (hy2 : year ≤ 9998) (hm1 : 1 ≤ month) (hm2 : month ≤ 12)
    (hdates : ∀ t ∈ db.transactions, ∃ e : Date,
      e.validB = true ∧ e.year ≤ 9999 ∧ t.date = fmtDate e) :
    db.transactions.filter (fun t => dateInRange t.date
        (fmt4 year ++ 45 :: fmt2 month ++ [45, 48, 49])
        (if month == 12 then fmt4 (year + 1) ++ [45, 48, 49, 45, 48, 49]
         else fmt4 year ++ 45 :: fmt2 (month + 1) ++ [45, 48, 49])) =
      specMonthTxns db year month := by
  unfold specMonthTxns
  apply List.filter_congr
  intro t ht
  obtain ⟨e, hve, hye, hde⟩ := hdates t ht
  unfold specInMonth
  rw [hde, parseDate_fmtDate e hve hye]
  dsimp only
  rw [Bool.eq_iff_iff, monthWindow_mem year month hy1 hy2 hm1 hm2 e hve hye]
  simp

/-- C4 (amended): on a store of canonical dates and for years up to
9998, `monthly_report` aggregates exactly the transactions of the
calendar month `[year-month-01, next-month-01)` (rolling the year after
December): income and expense are the window totals, net is their
difference, and `byCategory` is a net-descending ordering of one entry
per group key — the joined category name, with the `Uncategorized`
sentinel for `NULL` — carrying that group's net. The year bound is
necessary: `c4_counterexample` shows that at `(9999, 12)` the rollover
end string `10000-01-01` byte-compares below every stored date and the
report silently drops the whole month. -/
theorem c4_monthly_report (db : DB) (year month : Nat) (hy1 : 1 ≤ year)
    (hy2 : year ≤ 9998) (hm1 : 1 ≤ month) (hm2 : month ≤ 12)
    (hdates : ∀ t ∈ db.transactions, ∃ e : Date,
      e.validB = true ∧ e.year ≤ 9999 ∧ t.date = fmtDate e) :
    (monthly_report db year month).income =
      sumAmounts ((specMonthTxns db year month).filter
        (fun t => t.ttype == TType.income)) ∧
    (monthly_report db year month).expense =
      sumAmounts ((specMonthTxns db year month).filter
        (fun t => t.ttype == TType.expense)) ∧
    (monthly_report db year month).net =
      (monthly_report db year month).income -
        (monthly_report db year month).expense ∧
    List.Sorted entryOrd (monthly_report db year month).byCategory ∧
    (monthly_report db year month).byCategory.Perm
      (((specMonthTxns db year month).map (groupKey db.categories)).dedup.map
        (fun k => ⟨categoryLabel k,
          netSum ((specMonthTxns db year month).filter
            (fun t => groupKey db.categories t == k))⟩)) := by
  have hf := monthFilter_eq db year month hy1 hy2 hm1 hm2 hdates
  simp only [monthly_report]
  rw [hf]
  exact ⟨rfl, rfl, trivial, List.sorted_insertionSort entryOrd _,
    List.perm_insertionSort entryOrd _⟩

/-- Concrete check of the monthly-report theorem: an income of 100 and
an expense of 25, both in month 0005-11 and category `Food`. -/
theorem c4_monthly_report_witness :
    (monthly_report ⟨[⟨1, [70, 111, 111, 100]⟩],
        [⟨1, [48, 48, 48, 53, 45, 49, 49, 45, 48, 49], 100, TType.income, some 1, none⟩,
         ⟨2, [48, 48, 48, 53, 45, 49, 49, 45, 48, 50], 25, TType.expense, some 1, none⟩],
        [], [], 2, 3, 1, 1⟩ 5 11).income =
      sumAmounts ((specMonthTxns ⟨[⟨1, [70, 111, 111, 100]⟩],
        [⟨1, [48, 48, 48, 53, 45, 49, 49, 45, 48, 49], 100, TType.income, some 1, none⟩,
         ⟨2, [48, 48, 48, 53, 45, 49, 49, 45, 48, 50], 25, TType.expense, some 1, none⟩],
        [], [], 2, 3, 1, 1⟩ 5 11).filter (fun t => t.ttype == TType.income)) ∧
    (monthly_report ⟨[⟨1, [70, 111, 111, 100]⟩],
        [⟨1, [48, 48, 48, 53, 45, 49, 49, 45, 48, 49], 100, TType.income, some 1, none⟩,
         ⟨2, [48, 48, 48, 53, 45, 49, 49, 45, 48, 50], 25, TType.expense, some 1, none⟩],
        [], [], 2, 3, 1, 1⟩ 5 11).expense =
      sumAmounts ((specMonthTxns ⟨[⟨1, [70, 111, 111, 100]⟩],
        [⟨1, [48, 48, 48, 53, 45, 49, 49, 45, 48, 49], 100, TType.income, some 1, none⟩,
         ⟨2, [48, 48, 48, 53, 45, 49, 49, 45, 48, 50], 25, TType.expense, some 1, none⟩],
        [], [], 2, 3, 1, 1⟩ 5 11).filter (fun t => t.ttype == TType.expense)) ∧
    (monthly_report ⟨[⟨1, [70, 111, 111, 100]⟩],
        [⟨1, [48, 48, 48, 53, 45, 49, 49, 45, 48, 49], 100, TType.income, some 1, none⟩,
         ⟨2, [48, 48, 48, 53, 45, 49, 49, 45, 48, 50], 25, TType.expense, some 1, none⟩],
        [], [], 2, 3, 1, 1⟩ 5 11).net =
      (monthly_report ⟨[⟨1, [70, 111, 111, 100]⟩],
        [⟨1, [48, 48, 48, 53, 45, 49, 49, 45, 48, 49], 100, TType.income, some 1, none⟩,
         ⟨2, [48, 48, 48, 53, 45, 49, 49, 45, 48, 50], 25, TType.expense, some 1, none⟩],
        [], [], 2, 3, 1, 1⟩ 5 11).income -
      (monthly_report ⟨[⟨1, [70, 111, 111, 100]⟩],
        [⟨1, [48, 48, 48, 53, 45, 49, 49, 45, 48, 49], 100, TType.income, some 1, none⟩,
         ⟨2, [48, 48, 48, 53, 45, 49, 49, 45, 48, 50], 25, TType.expense, some 1, none⟩],
        [], [], 2, 3, 1, 1⟩ 5 11).expense ∧
    List.Sorted entryOrd (monthly_report ⟨[⟨1, [70, 111, 111, 100]⟩],
        [⟨1, [48, 48, 48, 53, 45, 49, 49, 45, 48, 49], 100, TType.income, some 1, none⟩,
         ⟨2, [48, 48, 48, 53, 45, 49, 49, 45, 48, 50], 25, TType.expense, some 1, none⟩],
        [], [], 2, 3, 1, 1⟩ 5 11).byCategory ∧
    (monthly_report ⟨[⟨1, [70, 111, 111, 100]⟩],
        [⟨1, [48, 48, 48, 53, 45, 49, 49, 45, 48, 49], 100, TType.income, some 1, none⟩,
         ⟨2, [48, 48, 48, 53, 45, 49, 49, 45, 48, 50], 25, TType.expense, some 1, none⟩],
        [], [], 2, 3, 1, 1⟩ 5 11).byCategory.Perm
      (((specMonthTxns ⟨[⟨1, [70, 111, 111, 100]⟩],
        [⟨1, [48, 48, 48, 53, 45, 49, 49, 45, 48, 49], 100, TType.income, some 1, none⟩,
         ⟨2, [48, 48, 48, 53, 45, 49, 49, 45, 48, 50], 25, TType.expense, some 1, none⟩],
        [], [], 2, 3, 1, 1⟩ 5 11).map (groupKey [⟨1, [70, 111, 111, 100]⟩])).dedup.map
        (fun k => ⟨categoryLabel k,
          netSum ((specMonthTxns ⟨[⟨1, [70, 111, 111, 100]⟩],
            [⟨1, [48, 48, 48, 53, 45, 49, 49, 45, 48, 49], 100, TType.income, some 1, none⟩,
             ⟨2, [48, 48, 48, 53, 45, 49, 49, 45, 48, 50], 25, TType.expense, some 1, none⟩],
            [], [], 2, 3, 1, 1⟩ 5 11).filter
            (fun t => groupKey [⟨1, [70, 111, 111, 100]⟩] t == k))⟩)) := by
  refine c4_monthly_report ⟨[⟨1, [70, 111, 111, 100]⟩],
    [⟨1, [48, 48, 48, 53, 45, 49, 49, 45, 48, 49], 100, TType.income, some 1, none⟩,
     ⟨2, [48, 48, 48, 53, 45, 49, 49, 45, 48, 50], 25, TType.expense, some 1, none⟩],
    [], [], 2, 3, 1, 1⟩ 5 11 (by decide) (by decide) (by decide) (by decide) ?_
  intro t ht
  rcases List.mem_cons.mp ht with rfl | ht2
  · exact ⟨⟨5, 11, 1⟩, by decide, by decide, rfl⟩
  · rcases List.mem_cons.mp ht2 with rfl | ht3
    · exact ⟨⟨5, 11, 2⟩, by decide, by decide, rfl⟩
    · exact absurd ht3 (List.not_mem_nil t)

/-- Counterexample to C4 as stated for every year and month: at
`(9999, 12)` the rollover builds the window end string `10000-01-01`
(`f-string` padding is a minimum width), whose first byte `1` sorts
below the `9` opening every stored December-9999 date, so the window is
empty: an income of 100 canonically dated `9999-12-15` — inside the
calendar month per `specInMonth` — is silently dropped and the report
returns zero totals and no category entries. -/
theorem c4_counterexample :
    (monthly_report ⟨[], [⟨1, [57, 57, 57, 57, 45, 49, 50, 45, 49, 53], 100,
        TType.income, none, none⟩], [], [], 1, 2, 1, 1⟩ 9999 12).income = 0 ∧
    (monthly_report ⟨[], [⟨1, [57, 57, 57, 57, 45, 49, 50, 45, 49, 53], 100,
        TType.income, none, none⟩], [], [], 1, 2, 1, 1⟩ 9999 12).expense = 0 ∧
    (monthly_report ⟨[], [⟨1, [57, 57, 57, 57, 45, 49, 50, 45, 49, 53], 100,
        TType.income, none, none⟩], [], [], 1, 2, 1, 1⟩ 9999 12).byCategory = [] ∧
    parseDate [57, 57, 57, 57, 45, 49, 50, 45, 49, 53] = some ⟨9999, 12, 15⟩ ∧
    canonicalDate [57, 57, 57, 57, 45, 49, 50, 45, 49, 53] = true ∧
    specInMonth 9999 12 ⟨1, [57, 57, 57, 57, 45, 49, 50, 45, 49, 53], 100,
      TType.income, none, none⟩ = true :=
  ⟨rfl, rfl, rfl, rfl, rfl, rfl⟩

/-! ## Claim C1: alert deduplication -/

/-- The alert engine preserves the dedup invariant when fed a canonical
date string, provided the limits table has one row per category. -/
theorem check_alerts_dedup (db : DB) (cid : Nat) (td : Date)
    (hv : td.validB = true) (hy : td.year ≤ 9998)
    (hdist : db.catLimits.Pairwise (fun l1 l2 => l1.categoryId ≠ l2.categoryId))
    (hinv : AlertDedup db) :
    AlertDedup (check_and_create_alerts db cid (fmtDate td)) := by
  rcases check_alerts_cases db cid (fmtDate td) with h | ⟨lim, td2, hf, hp, ha, h⟩
  · rw [h]
    exact hinv
  · rw [parseDate_fmtDate td hv (by omega)] at hp
    have htd2 : td2 = td := by
      injection hp with h2
      exact h2.symm
    rw [htd2] at ha h
    rw [h]
    intro l hl g hg hgy
    dsimp only at hl ⊢
    rw [List.filter_append, List.length_append]
    simp only [List.filter_cons, List.filter_nil]
    by_cases hb : (cid == l.categoryId &&
        dateInRange (fmtDate td) (fmtDate (wStartD l.period g))
          (fmtDate (wEndD l.period g))) = true
    · rw [if_pos hb]
      rw [Bool.and_eq_true] at hb
      have hcid : l.categoryId = cid := by
        have := hb.1
        simp only [beq_iff_eq] at this
        exact this.symm
      have hrange := hb.2
      have hlimmem := List.mem_of_find?_eq_some hf
      have hlimp : lim.categoryId = cid := by
        have := List.find?_some hf
        simpa using this
      have hleq : l = lim := by
        by_contra hne
        exact (List.Pairwise.forall (fun a b hab => (hab ∘ Eq.symm)) hdist
          hl hlimmem hne) (hcid.trans hlimp.symm)
      obtain ⟨hsv, hev, hsy, hey, _, _⟩ := window_wf l.period g hg hgy
      rw [dateInRange_fmtDate hv hsv hev (by omega) hsy hey] at hrange
      obtain ⟨hw1, hw2⟩ := window_unique l.period hg hv hgy hy hrange.1 hrange.2
      have hcw := codeWindow_eq lim.period td hv
      rw [hcw] at ha
      simp only [prodFst, prodSnd] at ha
      rw [← hleq, hw1, hw2, ← hcid] at ha
      have hnone : List.filter (fun a => a.categoryId == l.categoryId &&
          dateInRange a.alertDate (fmtDate (wStartD l.period g))
            (fmtDate (wEndD l.period g))) db.alerts = [] := by
        rw [List.filter_eq_nil]
        intro a hamem
        exact fun hpa => (List.find?_eq_none.mp ha a hamem) hpa
      rw [hnone]
      simp
    · rw [if_neg hb]
      have := hinv l hl g hg hgy
      simp only [List.length_nil]
      omega

/-- One `add_transaction` call with a canonical date preserves the
dedup invariant and the limits table. -/
theorem addTx_alert_dedup (db : DB) (c : TxCall) (td : Date)
    (hv : td.validB = true) (hy : td.year ≤ 9998) (hdc : c.date = fmtDate td)
    (hdist : db.catLimits.Pairwise (fun l1 l2 => l1.categoryId ≠ l2.categoryId))
    (hinv : AlertDedup db) (n : Nat) (db' : DB)
    (h : add_transaction db c.date c.amount c.ttype c.category c.descr =
      Except.ok (n, db')) :
    AlertDedup db' ∧ db'.catLimits = db.catLimits := by
  unfold add_transaction at h
  cases hpd : parseDate c.date with
  | none => rw [hpd] at h; exact absurd h (by simp)
  | some e =>
      rw [hpd] at h
      cases hpt : parseTType c.ttype with
      | none => rw [hpt] at h; exact absurd h (by simp)
      | some tt =>
          rw [hpt] at h
          simp only [Except.ok.injEq, Prod.mk.injEq] at h
          obtain ⟨-, hdb⟩ := h
          subst hdb
          refine ⟨?_, (postState_fields db c.date c.amount tt c.category c.descr).2⟩
          obtain ⟨rt, rl, ra, rn, rna⟩ := resolveCat_fields db c.category
          have h2l : (insertTx (resolveCat db c.category).2 c.date c.amount tt
              (resolveCat db c.category).1 c.descr).catLimits = db.catLimits := by
            unfold insertTx
            simpa using rl
          have h2a : (insertTx (resolveCat db c.category).2 c.date c.amount tt
              (resolveCat db c.category).1 c.descr).alerts = db.alerts := by
            unfold insertTx
            simpa using ra
          have h2i : AlertDedup (insertTx (resolveCat db c.category).2 c.date
              c.amount tt (resolveCat db c.category).1 c.descr) := by
            unfold AlertDedup
            simp only [h2l, h2a]
            exact hinv
          have h2d : (insertTx (resolveCat db c.category).2 c.date c.amount tt
              (resolveCat db c.category).1 c.descr).catLimits.Pairwise
              (fun l1 l2 => l1.categoryId ≠ l2.categoryId) := by
            rw [h2l]
            exact hdist
          unfold postState
          by_cases htt : tt = TType.expense
          · rw [if_pos htt]
            cases hr1 : (resolveCat db c.category).1 with
            | none =>
                rw [hr1] at h2i
                dsimp only
                exact h2i
            | some cid =>
                rw [hr1] at h2i h2d
                dsimp only
                by_cases hc : cid ≠ 0
                · rw [if_pos hc]
                  rw [hdc]
                  exact check_alerts_dedup _ cid td hv hy h2d h2i
                · rw [if_neg hc]
                  exact h2i
          · rw [if_neg htt]
            exact h2i

/-- Induction over a call sequence for the dedup invariant. -/
theorem runCalls_alert_dedup (calls : List TxCall) : ∀ db : DB,
    db.catLimits.Pairwise (fun l1 l2 => l1.categoryId ≠ l2.categoryId) →
    AlertDedup db →
    (∀ c ∈ calls, ∃ td : Date, td.validB = true ∧ td.year ≤ 9998 ∧
      c.date = fmtDate td) →
    AlertDedup (runCalls db calls) := by
  induction calls with
  | nil => exact fun db _ h _ => h
  | cons c rest ih =>
      intro db hdist hinv hdates
      obtain ⟨td, hv, hy, hdc⟩ := hdates c (List.mem_cons_self _ _)
      unfold runCalls
      cases hs : add_transaction db c.date c.amount c.ttype c.category c.descr with
      | ok r =>
          obtain ⟨h1, h2⟩ := addTx_alert_dedup db c td hv hy hdc hdist hinv
            r.1 r.2 (by rw [hs])
          exact ih r.2 (by rw [h2]; exact hdist) h1
            (fun c2 hc2 => hdates c2 (List.mem_cons_of_mem _ hc2))
      | error e =>
          exact ih db hdist hinv
            (fun c2 hc2 => hdates c2 (List.mem_cons_of_mem _ hc2))

/-- C1 (amended): starting from a store satisfying the dedup invariant
whose limits table has one row per category, any sequence of
`add_transaction` calls whose date arguments are canonical
(zero-padded, four-digit year) strings preserves it: afterwards, for
every configured limit and every period window at most one alert of
that category has its alert date inside the window. The restriction to
canonical dates is necessary: `c1_counterexample` exhibits a call
sequence with one non-padded date after which two alerts of one
category lie in the same monthly window. -/
theorem c1_alert_dedup (db : DB) (calls : List TxCall)
    (hdist : db.catLimits.Pairwise (fun l1 l2 => l1.categoryId ≠ l2.categoryId))
    (hinv : AlertDedup db)
    (hdates : ∀ c ∈ calls, ∃ td : Date, td.validB = true ∧ td.year ≤ 9998 ∧
      c.date = fmtDate td) :
    AlertDedup (runCalls db calls) :=
  runCalls_alert_dedup calls db hdist hinv hdates

/-- Concrete check of the dedup theorem: category `Food` with a monthly
limit of 50 and two over-limit expenses of 30 in 0005-01. -/
theorem c1_alert_dedup_witness :
    AlertDedup (runCalls ⟨[⟨1, [70, 111, 111, 100]⟩], [],
      [⟨1, 1, 50, Period.monthly⟩], [], 2, 1, 2, 1⟩
      [⟨[48, 48, 48, 53, 45, 48, 49, 45, 49, 48], 30, expenseTok,
        some [70, 111, 111, 100], none⟩,
       ⟨[48, 48, 48, 53, 45, 48, 49, 45, 50, 48], 30, expenseTok,
        some [70, 111, 111, 100], none⟩]) := by
  refine c1_alert_dedup ⟨[⟨1, [70, 111, 111, 100]⟩], [],
    [⟨1, 1, 50, Period.monthly⟩], [], 2, 1, 2, 1⟩ _ (by simp)
    (fun l hl g hg hgy => by simp) ?_
  intro c hc
  rcases List.mem_cons.mp hc with rfl | hc2
  · exact ⟨⟨5, 1, 10⟩, by decide, by decide, rfl⟩
  · rcases List.mem_cons.mp hc2 with rfl | hc3
    · exact ⟨⟨5, 1, 20⟩, by decide, by decide, rfl⟩
    · exact absurd hc3 (List.not_mem_nil c)

/-- C1 counterexample: an expense of 60 dated `0005-01-10`, a monthly
limit of 50 on `Food`, an expense dated `0005-1-5` (valid but not
zero-padded) and an expense dated `0005-01-20` leave TWO alerts for
`Food` whose alert dates lie in the same monthly window (0005-01): the
first alert is dated with the raw string `0005-1-5`, which the
byte-wise dedup range check of the fourth call does not find inside
`[0005-01-01, 0005-02-01)`. -/
theorem c1_counterexample :
    ∃ a1 a2 : Alert,
      (runCalls (okOr emptyDB (set_category_limit (runCalls emptyDB
          [⟨cxD1, 60, expenseTok, some cxF, none⟩]) cxF 50 monthlyTok))
        [⟨cxD2, 7, expenseTok, some cxF, none⟩,
         ⟨cxD3, 8, expenseTok, some cxF, none⟩]).alerts = [a1, a2] ∧
      a1.id ≠ a2.id ∧ a1.categoryId = 1 ∧ a2.categoryId = 1 ∧
      a1.period = Period.monthly ∧ a2.period = Period.monthly ∧
      ∃ e1 e2 : Date,
        parseDate a1.alertDate = some e1 ∧ parseDate a2.alertDate = some e2 ∧
        e1.validB = true ∧ e2.validB = true ∧
        wStartD Period.monthly e1 = wStartD Period.monthly e2 ∧
        wEndD Period.monthly e1 = wEndD Period.monthly e2 := by
  have e1 : runCalls emptyDB [⟨cxD1, 60, expenseTok, some cxF, none⟩] = cxDb1 := by
    rfl
  have e2 : set_category_limit cxDb1 cxF 50 monthlyTok = Except.ok cxDb2 := by
    rfl
  have hfil3 : cxDb3b.transactions.filter (fun t =>
      t.categoryId == some 1 && t.ttype == TType.expense &&
        dateInRange t.date (codeWindow Period.monthly ⟨5, 1, 5⟩ cxD2).1
          (codeWindow Period.monthly ⟨5, 1, 5⟩ cxD2).2) = [cxT1] := by
    rfl
  have hsp3 : sumAmounts [cxT1] = 60 := by
    simp [sumAmounts, cxT1]
  have e3c : check_and_create_alerts cxDb3b 1 cxD2 = cxDb3 := by
    unfold check_and_create_alerts
    rw [show cxDb3b.catLimits.find? (fun l => l.categoryId == 1) = some cxL from rfl]
    rw [show parseDate cxD2 = some ⟨5, 1, 5⟩ from rfl]
    dsimp only
    rw [show cxL.period = Period.monthly from rfl,
      show cxL.limitAmount = (50 : Rat) from rfl]
    rw [hfil3, hsp3]
    rw [if_pos (show (50 : Rat) < 60 by norm_num)]
    rw [show cxDb3b.alerts.find? (fun a => a.categoryId == 1 &&
      dateInRange a.alertDate (codeWindow Period.monthly ⟨5, 1, 5⟩ cxD2).1
        (codeWindow Period.monthly ⟨5, 1, 5⟩ cxD2).2) = none from rfl]
    rfl
  have e3 : add_transaction cxDb2 cxD2 7 expenseTok (some cxF) none =
      Except.ok (2, cxDb3) := by
    show Except.ok (2, postState cxDb2 cxD2 7 TType.expense (some cxF) none) =
      Except.ok (2, cxDb3)
    have hpost : postState cxDb2 cxD2 7 TType.expense (some cxF) none = cxDb3 := e3c
    rw [hpost]
  have hfil4 : cxDb4b.transactions.filter (fun t =>
      t.categoryId == some 1 && t.ttype == TType.expense &&
        dateInRange t.date (codeWindow Period.monthly ⟨5, 1, 20⟩ cxD3).1
          (codeWindow Period.monthly ⟨5, 1, 20⟩ cxD3).2) = [cxT1, cxT3] := by
    rfl
  have hsp4 : sumAmounts [cxT1, cxT3] = 68 := by
    norm_num [sumAmounts, cxT1, cxT3]
  have e4c : check_and_create_alerts cxDb4b 1 cxD3 = cxDb4 := by
    unfold check_and_create_alerts
    rw [show cxDb4b.catLimits.find? (fun l => l.categoryId == 1) = some cxL from rfl]
    rw [show parseDate cxD3 = some ⟨5, 1, 20⟩ from rfl]
    dsimp only
    rw [show cxL.period = Period.monthly from rfl,
      show cxL.limitAmount = (50 : Rat) from rfl]
    rw [hfil4, hsp4]
    rw [if_pos (show (50 : Rat) < 68 by norm_num)]
    rw [show cxDb4b.alerts.find? (fun a => a.categoryId == 1 &&
      dateInRange a.alertDate (codeWindow Period.monthly ⟨5, 1, 20⟩ cxD3).1
        (codeWindow Period.monthly ⟨5, 1, 20⟩ cxD3).2) = none from rfl]
    rfl
  have e4 : add_transaction cxDb3 cxD3 8 expenseTok (some cxF) none =
      Except.ok (3, cxDb4) := by
    show Except.ok (3, postState cxDb3 cxD3 8 TType.expense (some cxF) none) =
      Except.ok (3, cxDb4)
    have hpost : postState cxDb3 cxD3 8 TType.expense (some cxF) none = cxDb4 := e4c
    rw [hpost]
  have step23 : runCalls cxDb2 [⟨cxD2, 7, expenseTok, some cxF, none⟩,
      ⟨cxD3, 8, expenseTok, some cxF, none⟩] =
      runCalls cxDb3 [⟨cxD3, 8, expenseTok, some cxF, none⟩] := by
    unfold runCalls
    rw [e3]
    rfl
  have step34 : runCalls cxDb3 [⟨cxD3, 8, expenseTok, some cxF, none⟩] = cxDb4 := by
    unfold runCalls
    rw [e4]
    rfl
  have efin : (runCalls (okOr emptyDB (set_category_limit (runCalls emptyDB
      [⟨cxD1, 60, expenseTok, some cxF, none⟩]) cxF 50 monthlyTok))
      [⟨cxD2, 7, expenseTok, some cxF, none⟩,
       ⟨cxD3, 8, expenseTok, some cxF, none⟩]) = cxDb4 := by
    rw [e1, e2]
    show runCalls cxDb2 [⟨cxD2, 7, expenseTok, some cxF, none⟩,
      ⟨cxD3, 8, expenseTok, some cxF, none⟩] = cxDb4
    rw [step23, step34]
  exact ⟨cxA1, cxA2, by rw [efin]; rfl, by decide, rfl, rfl, rfl, rfl,
    ⟨5, 1, 5⟩, ⟨5, 1, 20⟩, rfl, rfl, rfl, rfl, rfl, rfl⟩

end BudgetManager
